import Mathlib

/-!
# handyhttpd: the control protocol of the single-instance daemon

A shallow embedding of `handyhttpd.go`: the command dispatcher `parseParams`,
the three control handlers registered by `main`, the forwarder branch, and the
daemon's shutdown path.  Go strings are byte sequences, effects are recorded in
a chronological trace, and the imported `./handy` package is a parameter.
-/

set_option maxRecDepth 100000
set_option maxHeartbeats 1000000

namespace Handyhttpd

/-! ## Go strings -/

/-- One byte of a Go string. -/
abbrev Byte := Fin 256

/-- A Go `string`: an immutable sequence of bytes. -/
abbrev GoString := List Byte

/-- The byte of an ASCII character of a source literal. -/
def Byte.ofChar (c : Char) : Byte := ⟨c.toNat % 256, Nat.mod_lt _ (by decide)⟩

/-- A string literal of the source (all literals of the program are ASCII). -/
def str (s : String) : GoString := s.toList.map Byte.ofChar

/-! ## Effects and the world -/

/-- Where `gLogger` writes: lines 60-67 open the log file and fall back to
`os.Stdout` when it cannot be opened. -/
inductive Sink where
  | logFile
  | stdout
  deriving DecidableEq

/-- The observable actions of the program, in the order they happen.
`H` is the type of a `*handy.Handy` server handle. -/
inductive Effect (H : Type) where
  /-- A line on the standard logger: `log.Println`. -/
  | stdLog (msg : GoString)
  /-- A line on `gLogger`, written to `sink`; of the line its literal part is
  recorded, and the status code of line 122. -/
  | log (sink : Sink) (msg : GoString)
  /-- Bytes the program prints on `os.Stdout` with `fmt.Println` or `io.Copy`. -/
  | stdout (bytes : GoString)
  /-- A call of `net.Listen("unix", socket)`. -/
  | listen (socket : GoString)
  /-- A call of `client.Get(url)`. -/
  | get (url : GoString)
  /-- A call of `l.Close()`. -/
  | close
  /-- A call of `h.Find(port)`. -/
  | find (port : Int)
  /-- A call of `h.New(port, gLogger)`. -/
  | new (port : Int)
  /-- A call of `handy.Del(root)`. -/
  | del (handy : H) (root : GoString)
  /-- A call of `handy.Add(root, pattern)`. -/
  | add (handy : H) (root pattern : GoString)
  /-- A call of `handy.Start()`. -/
  | start (handy : H)
  /-- A call of `h.LastPort()`. -/
  | lastPort
  /-- A call of `h.Stop()`. -/
  | stop
  /-- A call of `h.List(w)`. -/
  | list
  /-- The `go func()` of `main`: three `http.HandleFunc` and `http.Serve(l, nil)`. -/
  | serve
  /-- A call of `signal.Notify(sig)`. -/
  | notify
  /-- A call of `w.WriteHeader(code)`. -/
  | writeHeader (code : Nat)
  /-- Bytes written to the `http.ResponseWriter`. -/
  | write (bytes : GoString)
  /-- A call of `process.Signal(sig)` on the daemon's own process. -/
  | signal (sig : Nat)
  deriving DecidableEq

/-- The calls into the `handy` package that `parseParams` can make. -/
def Effect.isDispatch {H : Type} : Effect H → Bool
  | .find _ => true
  | .new _ => true
  | .del _ _ => true
  | .add _ _ _ => true
  | .start _ => true
  | _ => false

/-- The interface of the imported package `./handy` as `handyhttpd.go` uses it.
The package itself is not part of the source file; its registry is a state `σ`
and every function is a transformer of that state. -/
structure HandyPkg (σ H : Type) where
  /-- The call `h.Find(port)`: the server and `ok`, as one option. -/
  Find : Int → σ → Option H × σ
  /-- The call `h.New(port, gLogger)`: `none` is the `nil` result. -/
  New : Int → σ → Option H × σ
  /-- The call `handy.Add(root, pattern)`. -/
  Add : H → GoString → GoString → σ → σ
  /-- The call `handy.Del(root)`. -/
  Del : H → GoString → σ → σ
  /-- The call `handy.Start()`. -/
  Start : H → σ → σ
  /-- The call `h.LastPort()`. -/
  LastPort : σ → Int
  /-- The call `h.Stop()`. -/
  Stop : σ → σ
  /-- The call `h.List(w)`: the bytes it writes to `w`. -/
  List : σ → GoString

/-- The state of a run: the registry of the `handy` package, the trace of
effects so far, oldest first, and the writer of the global `gLogger`. -/
structure World (σ H : Type) where
  handy : σ
  trace : List (Effect H)
  gLogger : Sink
  deriving DecidableEq

/-- Record one effect. -/
def World.emit {σ H : Type} (w : World σ H) (e : Effect H) : World σ H :=
  { w with trace := w.trace ++ [e] }

/-- A line on `gLogger`: it goes where `gLogger` writes. -/
def World.logln {σ H : Type} (w : World σ H) (msg : GoString) : World σ H :=
  w.emit (.log w.gLogger msg)

/-! ## `parseParams` -/

/-- Lines 31-38 of `parseParams`: `h.Find(port)`, and `h.New(port, gLogger)`
when `ok` is false.  `none` is the `return false` of line 36. -/
def obtainHandy {σ H : Type} (pkg : HandyPkg σ H) (port : Int) (w : World σ H) :
    Option H × World σ H :=
  let found := pkg.Find port w.handy
  let w1 : World σ H :=
    { handy := found.2, trace := w.trace ++ [.find port], gLogger := w.gLogger }
  match found.1 with
  | some handy => (some handy, w1)
  | none =>
    let created := pkg.New port w1.handy
    let w2 : World σ H :=
      { handy := created.2, trace := w1.trace ++ [.new port], gLogger := w1.gLogger }
    match created.1 with
    | none => (none, w2.logln (str "cannot create new handy server"))
    | some handy => (some handy, w2)

/-- The function `parseParams(root, pattern string, port int, remove bool) bool`. -/
def parseParams {σ H : Type} (pkg : HandyPkg σ H) (root pattern : GoString) (port : Int)
    (remove : Bool) (w : World σ H) : Bool × World σ H :=
  match obtainHandy pkg port w with
  | (none, w1) => (false, w1)
  | (some handy, w1) =>
    let w2 : World σ H :=
      if remove then
        { handy := pkg.Del handy root w1.handy, trace := w1.trace ++ [.del handy root],
          gLogger := w1.gLogger }
      else
        { handy := pkg.Add handy root pattern w1.handy,
          trace := w1.trace ++ [.add handy root pattern], gLogger := w1.gLogger }
    let w3 : World σ H :=
      { handy := pkg.Start handy w2.handy, trace := w2.trace ++ [.start handy],
        gLogger := w2.gLogger }
    (true, w3)

/-! ## The standard library as the program uses it: `net/url`, `strconv`, `fmt` -/

/-- The test `shouldEscape(c, encodeQueryComponent)` of `net/url`. -/
def shouldEscape (c : Byte) : Bool :=
  if (97 ≤ c.val ∧ c.val ≤ 122) ∨ (65 ≤ c.val ∧ c.val ≤ 90) ∨ (48 ≤ c.val ∧ c.val ≤ 57) then
    false
  else if c = Byte.ofChar '-' ∨ c = Byte.ofChar '_' ∨ c = Byte.ofChar '.' ∨ c = Byte.ofChar '~' then
    false
  else
    true

/-- The table `upperhex = "0123456789ABCDEF"` of `net/url`. -/
def upperhex : GoString := str "0123456789ABCDEF"

/-- The function `url.QueryEscape`: a space becomes `+`, a byte that must be
escaped becomes `%XX` with `upperhex[c>>4]` and `upperhex[c&15]`. -/
def QueryEscape : GoString → GoString
  | [] => []
  | c :: rest =>
    if c = Byte.ofChar ' ' then
      Byte.ofChar '+' :: QueryEscape rest
    else if shouldEscape c then
      Byte.ofChar '%' :: upperhex.getD (c.val / 16) 0 :: upperhex.getD (c.val % 16) 0
        :: QueryEscape rest
    else
      c :: QueryEscape rest

/-- The test `ishex` of `net/url`. -/
def ishex (c : Byte) : Bool :=
  (48 ≤ c.val ∧ c.val ≤ 57) ∨ (97 ≤ c.val ∧ c.val ≤ 102) ∨ (65 ≤ c.val ∧ c.val ≤ 70)

/-- The function `unhex` of `net/url`. -/
def unhex (c : Byte) : Nat :=
  if 48 ≤ c.val ∧ c.val ≤ 57 then c.val - 48
  else if 97 ≤ c.val ∧ c.val ≤ 102 then c.val - 97 + 10
  else if 65 ≤ c.val ∧ c.val ≤ 70 then c.val - 65 + 10
  else 0

/-- The function `url.QueryUnescape`: `none` is an `EscapeError` (a `%` not
followed by two hex digits); `%XX` is the byte `unhex(X)<<4 | unhex(X)` and `+`
is a space. -/
def QueryUnescape : GoString → Option GoString
  | [] => some []
  | c :: rest =>
    if c = Byte.ofChar '%' then
      match rest with
      | h1 :: h2 :: rest2 =>
        if ishex h1 ∧ ishex h2 then
          (QueryUnescape rest2).map
            (fun t => (⟨(unhex h1 * 16 + unhex h2) % 256, Nat.mod_lt _ (by decide)⟩ : Byte) :: t)
        else none
      | _ => none
    else if c = Byte.ofChar '+' then
      (QueryUnescape rest).map (fun t => Byte.ofChar ' ' :: t)
    else
      (QueryUnescape rest).map (fun t => c :: t)

/-- The function `strings.Cut(s, sep)` for a one-byte separator: the text before
the first `sep`, and the text after it when there is one. -/
def cut (sep : Byte) : GoString → GoString × Option GoString
  | [] => ([], none)
  | c :: rest =>
    if c = sep then ([], some rest)
    else ((c :: (cut sep rest).1), (cut sep rest).2)

/-- The type `url.Values`: a map from a key to the list of its values. -/
abbrev Values := List (GoString × List GoString)

/-- The map read `m[key]` with its `ok`. -/
def Values.get (m : Values) (key : GoString) : Option (List GoString) :=
  match m with
  | [] => none
  | (k, vs) :: rest => if k = key then some vs else Values.get rest key

/-- The statement `m[key] = append(m[key], value)`. -/
def Values.add (m : Values) (key value : GoString) : Values :=
  match m with
  | [] => [(key, [value])]
  | (k, vs) :: rest =>
    if k = key then (k, vs ++ [value]) :: rest else (k, vs) :: Values.add rest key value

/-- One turn of the loop of `parseQuery` on the segment `key` that was cut off
at `&`: a segment with a semicolon, an empty segment or a bad escape is skipped. -/
def parsePair (m : Values) (key : GoString) : Values :=
  if Byte.ofChar ';' ∈ key then m
  else if key = [] then m
  else
    match QueryUnescape (cut (Byte.ofChar '=') key).1 with
    | none => m
    | some k =>
      match QueryUnescape (((cut (Byte.ofChar '=') key).2).getD []) with
      | none => m
      | some v => Values.add m k v

/-- The loop `for query != ""` of `parseQuery` in `net/url`; the query gets
shorter in every turn, so `fuel` above its length is never used up. -/
def parseQueryLoop : Nat → Values → GoString → Values
  | 0, m, _ => m
  | fuel + 1, m, query =>
    if query = [] then m
    else
      parseQueryLoop fuel (parsePair m (cut (Byte.ofChar '&') query).1)
        (((cut (Byte.ofChar '&') query).2).getD [])

/-- The function `parseQuery(m, query)` of `net/url`. -/
def parseQuery (m : Values) (query : GoString) : Values :=
  parseQueryLoop (query.length + 1) m query

/-- The part of an `*http.Request` that `ParseForm` reads: the raw query of the
URL and the url-encoded body (empty for a `GET`, and whenever `ParseForm` does
not read the body). -/
structure Request where
  rawQuery : GoString
  postBody : GoString

/-- The method `r.ParseForm()`: the values of the body first, then those of the
URL query, under each key. -/
def ParseForm (r : Request) : Values :=
  parseQuery (parseQuery [] r.postBody) r.rawQuery

/-- The width of Go's `int` on the platforms the daemon runs on. -/
def intSize : Nat := 64

/-- The decimal digits of `strconv`: `none` is a byte that is no digit. -/
def parseDigits : Nat → GoString → Option Nat
  | acc, [] => some acc
  | acc, c :: rest =>
    if 48 ≤ c.val ∧ c.val ≤ 57 then parseDigits (acc * 10 + (c.val - 48)) rest else none

/-- The function `strconv.Atoi`: the value and whether `err == nil`.  A syntax
error gives 0, a value out of the range of `int` gives the nearest bound. -/
def Atoi (s : GoString) : Int × Bool :=
  match s with
  | [] => (0, false)
  | c :: rest =>
    let neg : Bool := c = Byte.ofChar '-'
    let digits : GoString := if c = Byte.ofChar '-' ∨ c = Byte.ofChar '+' then rest else s
    if digits = [] then (0, false)
    else
      match parseDigits 0 digits with
      | none => (0, false)
      | some n =>
        if neg then
          if 2 ^ (intSize - 1) < n then (-(2 ^ (intSize - 1) : Int), false)
          else (-(n : Int), true)
        else
          if 2 ^ (intSize - 1) ≤ n then ((2 ^ (intSize - 1) : Int) - 1, false)
          else ((n : Int), true)

/-- The digit loop of `fmt` for `%d`: the digits of `u`, most significant
first, in front of `acc`. -/
def fmtDigits : Nat → Nat → GoString → GoString
  | 0, _, acc => acc
  | fuel + 1, u, acc =>
    if 10 ≤ u then fmtDigits fuel (u / 10) (⟨48 + u % 10, by omega⟩ :: acc)
    else ⟨48 + u % 10, by omega⟩ :: acc

/-- The verb `%d` of `fmt` on an `int`. -/
def fmtInt (n : Int) : GoString :=
  if n < 0 then Byte.ofChar '-' :: fmtDigits (n.natAbs + 1) n.natAbs []
  else fmtDigits (n.natAbs + 1) n.natAbs []

/-- The function `filepath.Base` on a Unix path. -/
def Base (path : GoString) : GoString :=
  if path = [] then str "."
  else
    let stripped := (path.reverse.dropWhile (fun c => c = Byte.ofChar '/')).reverse
    let last := (stripped.reverse.takeWhile (fun c => c ≠ Byte.ofChar '/')).reverse
    if last = [] then str "/" else last

/-! ## The control handlers of the daemon -/

/-- The `http.ResponseWriter` of one request: the status of the header once it
is written, and the body so far. -/
structure ResponseWriter where
  status : Option Nat
  body : GoString
  deriving DecidableEq

/-- The writer a handler is called with. -/
def ResponseWriter.fresh : ResponseWriter := { status := none, body := [] }

/-- The method `w.WriteHeader(code)`: only the first header counts. -/
def ResponseWriter.WriteHeader (w : ResponseWriter) (code : Nat) : ResponseWriter :=
  match w.status with
  | none => { w with status := some code }
  | some _ => w

/-- The method `w.Write(bytes)`: a write without a header sends `200` first. -/
def ResponseWriter.Write (w : ResponseWriter) (bytes : GoString) : ResponseWriter :=
  { status := some (w.status.getD 200), body := w.body ++ bytes }

/-- The status the client receives when the handler has returned: a handler
that wrote no header and no body is answered with `200`. -/
def ResponseWriter.replyStatus (w : ResponseWriter) : Nat := w.status.getD 200

/-- What a handler leaves behind: the world, the writer, and whether it
panicked (the server then drops the connection without a reply). -/
structure Served (σ H : Type) where
  world : World σ H
  w : ResponseWriter
  panicked : Bool
  deriving DecidableEq

/-- Lines 155-171 of the `"/"` handler: what it reads from the form. -/
inductive Decoded where
  /-- One of the four keys is absent: lines 160-164. -/
  | badRequest
  /-- An index `[0]` out of range. -/
  | panic
  /-- The arguments of lines 172-173: `verb[0]`, `dir[0]`, `alias[0]`,
  `portNumber` and `remove`. -/
  | command (verb dir alias_ : GoString) (portNumber : Int) (remove : Bool)
  deriving DecidableEq

/-- The decoding of the form in the `"/"` handler. -/
def decodeForm (form : Values) : Decoded :=
  match form.get (str "verb"), form.get (str "alias"), form.get (str "dir"),
      form.get (str "port") with
  | some verb, some alias_, some dir, some port =>
    match verb.head?, port.head?, dir.head?, alias_.head? with
    | some v, some p, some d, some a =>
      .command v d a (Atoi p).1 (decide (v = str "remove"))
    | _, _, _, _ => .panic
  | _, _, _, _ => .badRequest

/-- The confirmation line `"%s dir %s as /%s on port %d\n"`. -/
def confirmation (verb dir alias_ : GoString) (port : Int) : GoString :=
  verb ++ str " dir " ++ dir ++ str " as /" ++ alias_ ++ str " on port " ++ fmtInt port ++ str "\n"

/-- The handler of `"/"`. -/
def rootHandler {σ H : Type} (pkg : HandyPkg σ H) (r : Request) (wd : World σ H)
    (w : ResponseWriter) : Served σ H :=
  let wd1 := wd.logln (str "handle a verb request. url:")
  match decodeForm (ParseForm r) with
  | .badRequest =>
    { world := (wd1.logln (str "missing required query string params")).emit
        (.writeHeader 400),
      w := w.WriteHeader 400, panicked := false }
  | .panic => { world := wd1, w := w, panicked := true }
  | .command verb dir alias_ portNumber remove =>
    let done := parseParams pkg dir alias_ portNumber remove wd1
    if done.1 then
      let wd2 := done.2.emit .lastPort
      let line := confirmation verb dir alias_ (pkg.LastPort done.2.handy)
      { world := wd2.emit (.write line), w := w.Write line, panicked := false }
    else
      { world := done.2, w := w, panicked := false }

/-- The signal numbers of `syscall` that `main` compares with. -/
def SIGINT : Nat := 2

/-- The signal `syscall.SIGKILL`. -/
def SIGKILL : Nat := 9

/-- The signal `syscall.SIGTERM`. -/
def SIGTERM : Nat := 15

/-- The line the `"/quit"` handler prints with `fmt.Fprintln`. -/
def quitLine : GoString := str "Handy server is quiting now\n"

/-- The handler of `"/quit"`. -/
def quitHandler {σ H : Type} (wd : World σ H) (w : ResponseWriter) : Served σ H :=
  { world := (wd.emit (.write quitLine)).emit (.signal SIGINT),
    w := w.Write quitLine, panicked := false }

/-- The handler of `"/list"`. -/
def listHandler {σ H : Type} (pkg : HandyPkg σ H) (wd : World σ H) (w : ResponseWriter) :
    Served σ H :=
  let wd1 := wd.logln (str "listing all ports per request")
  { world := (wd1.emit .list).emit (.write (pkg.List wd1.handy)),
    w := w.Write (pkg.List wd1.handy), panicked := false }

/-! ## `main` -/

/-- The command line after `flag.Parse()`. -/
structure Flags where
  port : Int
  dir : GoString
  alias_ : GoString
  remove : Bool
  list : Bool
  quit : Bool

/-- The outcome of `client.Get`: an error, or a response. -/
inductive GetResult where
  | failed
  | response (status : Nat) (body : GoString)

/-- What the operating system answers to one run of `main`. -/
structure Env where
  /-- The result of `os.TempDir()`. -/
  tempdir : GoString
  /-- Whether `os.OpenFile` of the log file succeeds. -/
  logFileOpens : Bool
  /-- The result of `os.Getwd()`, its error dropped. -/
  cwd : GoString
  /-- Whether `net.Listen("unix", socket)` succeeds. -/
  bindOk : Bool
  /-- The outcome of `client.Get` for a URL. -/
  httpGet : GoString → GetResult
  /-- The signals delivered to the channel `sig`, in order. -/
  signals : List Nat

/-- The end of a run of `main`: the world, and the exit status of the process
once `main` has returned; `none` while `main` is blocked on `<-sig`. -/
structure Run (σ H : Type) where
  world : World σ H
  exit : Option Nat
  deriving DecidableEq

/-- The constant `HANDY_SOCK_FILENAME`. -/
def HANDY_SOCK_FILENAME : GoString := str "handyhttpd.sock"

/-- Lines 71-74: the served directory. -/
def resolveRoot (f : Flags) (env : Env) : GoString :=
  if f.dir = [] then env.cwd else f.dir

/-- Lines 76-79: the alias. -/
def resolvePattern (f : Flags) (env : Env) : GoString :=
  if f.alias_ = [] then Base (resolveRoot f env) else f.alias_

/-- Lines 97-114: the URL the forwarder requests. -/
def forwarderURL (f : Flags) (root pattern : GoString) : GoString :=
  if f.list then str "http://localhost/list"
  else if f.quit then str "http://localhost/quit"
  else
    let verb := if f.remove then str "remove" else str "add"
    str "http://localhost/?verb=" ++ verb ++ str "&alias=" ++ QueryEscape pattern
      ++ str "&dir=" ++ QueryEscape root ++ str "&port=" ++ fmtInt f.port

/-- Lines 85-128: the forwarder.  Every `return` of `main` ends the process
with exit status 0. -/
def forwarder {σ H : Type} (f : Flags) (root pattern : GoString) (env : Env)
    (wd : World σ H) : Run σ H :=
  let url := forwarderURL f root pattern
  let wd1 := wd.emit (.get url)
  match env.httpGet url with
  | .failed =>
    { world := wd1.logln (str "cannot connect handy server. err:"), exit := some 0 }
  | .response status body =>
    if status ≠ 200 then
      { world := wd1.logln (str "handy server denies the request. code: " ++ fmtInt status),
        exit := some 0 }
    else
      { world := wd1.emit (.stdout body), exit := some 0 }

/-- A call registered with `defer`. -/
inductive Deferred where
  | close
  | stop
  deriving DecidableEq

/-- The deferred calls of `main` when it returns: the stack is run from its top,
the call deferred last. -/
def runDeferred {σ H : Type} (pkg : HandyPkg σ H) : List Deferred → World σ H → World σ H
  | [], wd => wd
  | .close :: ds, wd => runDeferred pkg ds (wd.emit .close)
  | .stop :: ds, wd =>
    runDeferred pkg ds
      { handy := pkg.Stop wd.handy, trace := wd.trace ++ [.stop], gLogger := wd.gLogger }

/-- Lines 184-190: the loop on `<-sig`, with the stack of deferred calls. -/
def awaitSignals {σ H : Type} (pkg : HandyPkg σ H) (defers : List Deferred) :
    List Nat → World σ H → Run σ H
  | [], wd => { world := wd, exit := none }
  | s :: rest, wd =>
    if s = SIGKILL ∨ s = SIGINT ∨ s = SIGTERM then
      { world := runDeferred pkg defers (wd.logln (str "gracefully exit with signal")),
        exit := some 0 }
    else awaitSignals pkg defers rest wd

/-- Lines 179-180: `defer l.Close()` and then `defer h.Stop()`, each pushed on
the stack of deferred calls. -/
def mainDefers : List Deferred :=
  let afterLine179 := Deferred.close :: []
  Deferred.stop :: afterLine179

/-- Lines 179-190: the daemon waits for its end. -/
def daemonWait {σ H : Type} (pkg : HandyPkg σ H) (signals : List Nat) (wd : World σ H) :
    Run σ H :=
  awaitSignals pkg mainDefers signals (wd.emit .notify)

/-- Lines 60-65: the writer `file` that `gLogger` is made of at line 67: the
log file, or `os.Stdout` when the log file cannot be opened. -/
def logSink (env : Env) : Sink :=
  if env.logFileOpens then Sink.logFile else Sink.stdout

/-- Lines 59-81: the log file or `file = os.Stdout`, `gLogger = log.New(file, ...)`,
the first log line, and the call of `net.Listen`. -/
def mainPrelude {σ H : Type} (env : Env) (s0 : σ) : World σ H :=
  let wd0 : World σ H := { handy := s0, trace := [], gLogger := logSink env }
  let wd1 :=
    if env.logFileOpens then wd0
    else (wd0.emit (.stdLog (str "cannot open log file to write. filename:"))).emit
      (.stdLog (str "print log to stdout now"))
  let wd2 := wd1.logln (str "parsed params.")
  wd2.emit (.listen (env.tempdir ++ str "/" ++ HANDY_SOCK_FILENAME))

/-- The function `main`. -/
def main {σ H : Type} (pkg : HandyPkg σ H) (f : Flags) (env : Env) (s0 : σ) : Run σ H :=
  let wd := mainPrelude env s0
  let root := resolveRoot f env
  let pattern := resolvePattern f env
  if !env.bindOk then forwarder f root pattern env wd
  else if f.list then
    { world := (wd.emit (.stdout (str "No server is running\n"))).emit .close, exit := some 0 }
  else
    let applied := parseParams pkg root pattern f.port f.remove wd
    daemonWait pkg env.signals (applied.2.emit .serve)

/-- The raw query of a URL as `url.Parse` finds it: the fragment is cut off at
`#`, the query is what follows the first `?`. -/
def rawQueryOf (url : GoString) : GoString :=
  ((cut (Byte.ofChar '?') (cut (Byte.ofChar '#') url).1).2).getD []

/-- The request the daemon receives for a `client.Get(url)`: a `GET` without a body. -/
def requestOf (url : GoString) : Request := { rawQuery := rawQueryOf url, postBody := [] }

/-! ## The registry of §3 and §4 of the specification, as one instance of the package -/

/-- Modelled from the spec: the `HostedServer` of the package `./handy`, which
is imported by `handyhttpd.go` and is not part of the source file: one port,
the mounts `alias → rootDir` in order, and whether it is listening. -/
structure HostedServer where
  port : Int
  mounts : List (GoString × GoString)
  listening : Bool
  deriving DecidableEq

/-- Modelled from the spec: the `ServerRegistry` of the package `./handy`, which
is not part of the source file: the servers by port and the last used port;
`busy` are the ports held by something else on the host. -/
structure ServerRegistry where
  byPort : List HostedServer
  lastPort : Int
  busy : List Int
  deriving DecidableEq

/-- Modelled from the spec: the port a request resolves to in the missing
package; an unspecified port (0) is the last used port. -/
def ServerRegistry.resolve (reg : ServerRegistry) (port : Int) : Int :=
  if port = 0 then reg.lastPort else port

/-- Modelled from the spec: `addMount` of the missing `HostedServer`: registers
the alias or retargets it. -/
def addMount (al rootDir : GoString) : List (GoString × GoString) → List (GoString × GoString)
  | [] => [(al, rootDir)]
  | (a, d) :: rest => if a = al then (a, rootDir) :: rest else (a, d) :: addMount al rootDir rest

/-- Modelled from the spec: `removeMount` of the missing `HostedServer`:
unregisters the alias, a no-op when it is absent. -/
def removeMount (al : GoString) (mounts : List (GoString × GoString)) :
    List (GoString × GoString) :=
  mounts.filter (fun m => m.1 ≠ al)

/-- Modelled from the spec: the change of one `HostedServer` of the missing
registry, found by its port. -/
def ServerRegistry.update (reg : ServerRegistry) (port : Int)
    (f : HostedServer → HostedServer) : ServerRegistry :=
  { reg with byPort := reg.byPort.map (fun srv => if srv.port = port then f srv else srv) }

/-- Modelled from the spec: the package `./handy` (absent from the source) as
§4.1 and §4.2 describe it: `find`, `getOrCreate` with `BindError` and
`PortExhausted`, `addMount`, `removeMount`, `ensureListening`, `stop`, and the
enumeration of `list`.  A server handle is its port. -/
def specHandy : HandyPkg ServerRegistry Int where
  Find := fun port reg =>
    if (reg.byPort.any (fun srv => srv.port = reg.resolve port)) then
      (some (reg.resolve port), reg)
    else (none, reg)
  New := fun port reg =>
    if reg.resolve port = 0 then (none, reg)
    else if reg.resolve port ∈ reg.busy then (none, reg)
    else
      (some (reg.resolve port),
        { reg with
          byPort := reg.byPort ++ [{ port := reg.resolve port, mounts := [], listening := false }],
          lastPort := reg.resolve port })
  Add := fun h root pattern reg =>
    reg.update h (fun srv => { srv with mounts := addMount pattern root srv.mounts })
  Del := fun h key reg =>
    reg.update h (fun srv => { srv with mounts := removeMount key srv.mounts })
  Start := fun h reg => reg.update h (fun srv => { srv with listening := true })
  LastPort := fun reg => reg.lastPort
  Stop := fun reg =>
    { reg with byPort := reg.byPort.map (fun srv => { srv with listening := false }) }
  List := fun reg =>
    (reg.byPort.map (fun srv =>
      (srv.mounts.map (fun m =>
        fmtInt srv.port ++ str ": " ++ m.1 ++ str " -> " ++ m.2 ++ str "\n")).flatten)).flatten

/-- A registry without servers in which port 8080 is free and port 80 is held
by another program. -/
def emptyRegistry : ServerRegistry := { byPort := [], lastPort := 0, busy := [80] }

/-- The world at the start of a run on the empty registry. -/
def emptyWorld : World ServerRegistry Int :=
  { handy := emptyRegistry, trace := [], gLogger := .logFile }

/-- The first occurrence of `a` in a trace comes before the first occurrence of
`b`, and both occur. -/
def occursBefore {α : Type} [DecidableEq α] (a b : α) (t : List α) : Bool :=
  decide (a ∈ t) && decide (b ∈ t) && decide (t.indexOf a < t.indexOf b)

/-- A signal that ends the loop of `main`. -/
def terminating (s : Nat) : Bool := decide (s = SIGKILL ∨ s = SIGINT ∨ s = SIGTERM)

/-- A server with the mounts `a → /srv/a` and `b → /srv/b` on port 8080. -/
def twoMounts : World ServerRegistry Int :=
  { handy :=
      { byPort := [{ port := 8080, listening := true,
                     mounts := [(str "a", str "/srv/a"), (str "b", str "/srv/b")] }],
        lastPort := 8080, busy := [] },
    trace := [], gLogger := .logFile }

/-- The command line `-port 8080 -dir /srv/a -alias a`. -/
def addFlags : Flags :=
  { port := 8080, dir := str "/srv/a", alias_ := str "a", remove := false, list := false,
    quit := false }

/-- A host without a daemon: the bind succeeds, and an interrupt arrives later. -/
def daemonEnv : Env :=
  { tempdir := str "/tmp", logFileOpens := true, cwd := str "/home/u", bindOk := true,
    httpGet := fun _ => .failed, signals := [SIGINT] }

/-- A host with a daemon that answers every request with `reply`. -/
def clientEnv (reply : GetResult) : Env :=
  { tempdir := str "/tmp", logFileOpens := true, cwd := str "/home/u", bindOk := false,
    httpGet := fun _ => reply, signals := [] }

/-- An effect that writes to standard output: a print of the program, or a
line of `gLogger` when `gLogger` writes to `os.Stdout`. -/
def Effect.isStdout {H : Type} : Effect H → Bool
  | .stdout _ => true
  | .log .stdout _ => true
  | _ => false

/-- An effect of a run of `main` in `env` that is no print of the program on
standard output; it reaches standard output only as a line of `gLogger`, and
only when the log file could not be opened. -/
@[reducible] def Effect.logOnly {H : Type} (env : Env) (e : Effect H) : Prop :=
  (∀ bytes, e ≠ .stdout bytes) ∧
  (e.isStdout = true → env.logFileOpens = false ∧ ∃ msg, e = .log .stdout msg)

/-- A host on which the log file cannot be opened and whose daemon answers
every request with `reply`. -/
def noLogFileEnv (reply : GetResult) : Env :=
  { tempdir := str "/tmp", logFileOpens := false, cwd := str "/home/u", bindOk := false,
    httpGet := fun _ => reply, signals := [] }

/-- Every key of the map has at least one value. -/
def Values.filled (m : Values) : Prop := ∀ p ∈ m, p.2 ≠ []

/-- One of the four keys of a mutate command is absent from the form. -/
def keyAbsent (form : Values) : Prop :=
  form.get (str "verb") = none ∨ form.get (str "alias") = none ∨
    form.get (str "dir") = none ∨ form.get (str "port") = none

/-- The request `GET /?verb=add&alias=a&dir=%2Fsrv%2Fa&port=80`. -/
def addOnBusyPort : Request :=
  requestOf (str "http://localhost/?verb=add&alias=a&dir=%2Fsrv%2Fa&port=80")

/-- The request `GET /?verb=add&alias=a&dir=%2Fsrv%2Fa&port=0` after a first
request for port 8080. -/
def addOnLastPort : Request :=
  requestOf (str "http://localhost/?verb=add&alias=a&dir=%2Fsrv%2Fa&port=0")

/-- A byte that `QueryEscape` can put out: a letter, a digit, one of `-_.~`,
or `%` or `+`. -/
def queryByte (c : Byte) : Bool :=
  !shouldEscape c || decide (c = Byte.ofChar '%') || decide (c = Byte.ofChar '+')

/-- The values of Go's `int`. -/
def inIntRange (n : Int) : Prop := -(2 ^ (intSize - 1) : Int) ≤ n ∧ n < 2 ^ (intSize - 1)

/-- A byte of one `key=value` segment of the forwarder's query. -/
def segByte (c : Byte) : Bool := queryByte c || decide (c = Byte.ofChar '=')

/-- The command line `-remove -port -5 -dir "/srv/my dir" -alias "a&b"`. -/
def removeFlags : Flags :=
  { port := -5, dir := str "/srv/my dir", alias_ := str "a&b", remove := true, list := false,
    quit := false }

/-- The request `GET /?verb=add&alias=a&dir=%2Fsrv%2Fa`, without a port. -/
def addWithoutPort : Request :=
  requestOf (str "http://localhost/?verb=add&alias=a&dir=%2Fsrv%2Fa")

/-! ## Theorems -/

/-- The dispatcher when `Find` finds the server. -/
theorem parseParams_of_found {σ H : Type} (pkg : HandyPkg σ H) (root pattern : GoString)
    (port : Int) (remove : Bool) (w : World σ H) (h : H)
    (hf : (pkg.Find port w.handy).1 = some h) :
    parseParams pkg root pattern port remove w =
      (true,
        if remove then
          { handy := pkg.Start h (pkg.Del h root (pkg.Find port w.handy).2),
            trace := w.trace ++ [.find port, .del h root, .start h], gLogger := w.gLogger }
        else
          { handy := pkg.Start h (pkg.Add h root pattern (pkg.Find port w.handy).2),
            trace := w.trace ++ [.find port, .add h root pattern, .start h],
            gLogger := w.gLogger }) := by
  cases remove <;> simp [parseParams, obtainHandy, hf]

/-- The dispatcher when `Find` finds nothing and `New` gives a server. -/
theorem parseParams_of_created {σ H : Type} (pkg : HandyPkg σ H) (root pattern : GoString)
    (port : Int) (remove : Bool) (w : World σ H) (h : H)
    (hf : (pkg.Find port w.handy).1 = none)
    (hn : (pkg.New port (pkg.Find port w.handy).2).1 = some h) :
    parseParams pkg root pattern port remove w =
      (true,
        if remove then
          { handy := pkg.Start h (pkg.Del h root (pkg.New port (pkg.Find port w.handy).2).2),
            trace := w.trace ++ [.find port, .new port, .del h root, .start h],
            gLogger := w.gLogger }
        else
          { handy :=
              pkg.Start h (pkg.Add h root pattern (pkg.New port (pkg.Find port w.handy).2).2),
            trace := w.trace ++ [.find port, .new port, .add h root pattern, .start h],
            gLogger := w.gLogger }) := by
  cases remove <;> simp [parseParams, obtainHandy, hf, hn]

/-- The dispatcher when `Find` finds nothing and `New` gives `nil`. -/
theorem parseParams_of_failed {σ H : Type} (pkg : HandyPkg σ H) (root pattern : GoString)
    (port : Int) (remove : Bool) (w : World σ H)
    (hf : (pkg.Find port w.handy).1 = none)
    (hn : (pkg.New port (pkg.Find port w.handy).2).1 = none) :
    parseParams pkg root pattern port remove w =
      (false,
        { handy := (pkg.New port (pkg.Find port w.handy).2).2,
          trace := w.trace ++
            [.find port, .new port, .log w.gLogger (str "cannot create new handy server")],
          gLogger := w.gLogger }) := by
  simp [parseParams, obtainHandy, hf, hn, World.emit, World.logln]

/-- The effects of the dispatcher: the trace grows by calls of `Find`, `New`,
`Add`, `Del`, `Start` and log lines only, and the first of them is `Find`. -/
theorem parseParams_trace {σ H : Type} (pkg : HandyPkg σ H) (root pattern : GoString)
    (port : Int) (remove : Bool) (w : World σ H) :
    ∃ more : List (Effect H),
      (parseParams pkg root pattern port remove w).2.trace = w.trace ++ .find port :: more ∧
      (parseParams pkg root pattern port remove w).2.gLogger = w.gLogger ∧
      ∀ e ∈ more, e.isDispatch = true ∨ ∃ msg, e = .log w.gLogger msg := by
  cases hf : (pkg.Find port w.handy).1 with
  | some h =>
    rw [parseParams_of_found pkg root pattern port remove w h hf]
    cases remove <;> simp [Effect.isDispatch]
  | none =>
    cases hn : (pkg.New port (pkg.Find port w.handy).2).1 with
    | some h =>
      rw [parseParams_of_created pkg root pattern port remove w h hf hn]
      cases remove <;> simp [Effect.isDispatch]
    | none =>
      rw [parseParams_of_failed pkg root pattern port remove w hf hn]
      simp [Effect.isDispatch]

/-- C2, as the code has it: for a remove command whose port has no server
(`Find` finds nothing), the dispatcher calls `New(port)` as for an add.  When
`New` gives `nil` it logs and returns false without `Del` or `Start`; otherwise
`Del(root)` and `Start` run on the new server and it returns true. -/
theorem parseParams_remove_absent {σ H : Type} (pkg : HandyPkg σ H) (root pattern : GoString)
    (port : Int) (w : World σ H) (hf : (pkg.Find port w.handy).1 = none) :
    parseParams pkg root pattern port true w =
      match (pkg.New port (pkg.Find port w.handy).2).1 with
      | none =>
        (false,
          { handy := (pkg.New port (pkg.Find port w.handy).2).2,
            trace := w.trace ++
              [.find port, .new port, .log w.gLogger (str "cannot create new handy server")],
            gLogger := w.gLogger })
      | some h =>
        (true,
          { handy := pkg.Start h (pkg.Del h root (pkg.New port (pkg.Find port w.handy).2).2),
            trace := w.trace ++ [.find port, .new port, .del h root, .start h],
            gLogger := w.gLogger }) := by
  cases hn : (pkg.New port (pkg.Find port w.handy).2).1 with
  | none => simpa using parseParams_of_failed pkg root pattern port true w hf hn
  | some h => simpa using parseParams_of_created pkg root pattern port true w h hf hn

/-- C2 at the empty registry: port 8080 has no server and the remove creates
and starts one. -/
theorem parseParams_remove_absent_witness :
    (specHandy.Find 8080 emptyWorld.handy).1 = none ∧
    parseParams specHandy (str "/srv/a") (str "a") 8080 true emptyWorld =
      (true,
        { handy := { byPort := [{ port := 8080, mounts := [], listening := true }],
                     lastPort := 8080, busy := [80] },
          trace := [.find 8080, .new 8080, .del 8080 (str "/srv/a"), .start 8080],
          gLogger := .logFile }) :=
  ⟨by decide, by
    rw [parseParams_remove_absent specHandy (str "/srv/a") (str "a") 8080 emptyWorld (by decide)]
    decide⟩

/-- C2 fails as stated: a remove for port 8080 on the empty registry (`Find`
finds nothing) calls `New`, registers a server, starts its listener and so
changes the registry. -/
theorem remove_absent_creates_server :
    (specHandy.Find 8080 emptyWorld.handy).1 = none ∧
    (parseParams specHandy (str "/srv/a") (str "a") 8080 true emptyWorld).1 = true ∧
    Effect.new 8080 ∈
      (parseParams specHandy (str "/srv/a") (str "a") 8080 true emptyWorld).2.trace ∧
    Effect.start 8080 ∈
      (parseParams specHandy (str "/srv/a") (str "a") 8080 true emptyWorld).2.trace ∧
    (parseParams specHandy (str "/srv/a") (str "a") 8080 true emptyWorld).2.handy
      ≠ emptyWorld.handy := by
  decide

/-- C7, as the code has it: a remove command with alias `a` and rootDir `d`
calls `Del` with the rootDir `d` on the server it obtained, then `Start`; the
alias is not passed on, and the run is the same for every alias. -/
theorem parseParams_remove_passes_root {σ H : Type} (pkg : HandyPkg σ H) (d a : GoString)
    (port : Int) (w : World σ H) (h : H) (hh : (obtainHandy pkg port w).1 = some h) :
    parseParams pkg d a port true w =
      (true,
        { handy := pkg.Start h (pkg.Del h d (obtainHandy pkg port w).2.handy),
          trace := (obtainHandy pkg port w).2.trace ++ [.del h d, .start h],
          gLogger := (obtainHandy pkg port w).2.gLogger }) ∧
    ∀ a2 : GoString, parseParams pkg d a2 port true w = parseParams pkg d a port true w := by
  constructor
  · unfold parseParams
    rcases hob : obtainHandy pkg port w with ⟨o, w1⟩
    rw [hob] at hh
    simp only at hh
    subst hh
    simp
  · intro a2
    unfold parseParams
    rcases obtainHandy pkg port w with ⟨o, w1⟩
    cases o <;> simp

/-- C7 on a server with the mounts `a` and `b`: the remove of alias `a` with
rootDir `/srv/b` calls `Del("/srv/b")`. -/
theorem parseParams_remove_passes_root_witness :
    (obtainHandy specHandy 8080 twoMounts).1 = some 8080 ∧
    (parseParams specHandy (str "/srv/b") (str "a") 8080 true twoMounts).2.trace =
      [.find 8080, .del 8080 (str "/srv/b"), .start 8080] :=
  ⟨by decide, by
    rw [(parseParams_remove_passes_root specHandy (str "/srv/b") (str "a") 8080 twoMounts 8080
      (by decide)).1]
    decide⟩

/-- C7 fails as stated: the remove of alias `a` with rootDir `/srv/b` invokes
the remove operation with `/srv/b` and never with `a`. -/
theorem remove_is_keyed_by_root :
    Effect.del 8080 (str "/srv/b") ∈
      (parseParams specHandy (str "/srv/b") (str "a") 8080 true twoMounts).2.trace ∧
    Effect.del 8080 (str "a") ∉
      (parseParams specHandy (str "/srv/b") (str "a") 8080 true twoMounts).2.trace := by
  decide

/-- The deferred calls of `main` run `h.Stop()` first and `l.Close()` last. -/
theorem runDeferred_mainDefers {σ H : Type} (pkg : HandyPkg σ H) (wd : World σ H) :
    runDeferred pkg mainDefers wd =
      { handy := pkg.Stop wd.handy, trace := wd.trace ++ [.stop, .close],
        gLogger := wd.gLogger } := by
  simp [mainDefers, runDeferred, World.emit, World.logln]

/-- The loop of `main` returns at the first terminating signal. -/
theorem awaitSignals_of_terminating {σ H : Type} (pkg : HandyPkg σ H) (signals : List Nat)
    (wd : World σ H) (hs : ∃ s ∈ signals, terminating s = true) :
    awaitSignals pkg mainDefers signals wd =
      { world :=
          { handy := pkg.Stop wd.handy,
            trace := wd.trace ++
              [.log wd.gLogger (str "gracefully exit with signal"), .stop, .close],
            gLogger := wd.gLogger },
        exit := some 0 } := by
  induction signals with
  | nil => simp at hs
  | cons s rest ih =>
    by_cases ht : s = SIGKILL ∨ s = SIGINT ∨ s = SIGTERM
    · simp [awaitSignals, ht, runDeferred_mainDefers, World.emit, World.logln]
    · have hrest : ∃ s ∈ rest, terminating s = true := by
        obtain ⟨x, hx, hxt⟩ := hs
        rcases List.mem_cons.mp hx with rfl | hx
        · exact absurd (by simpa [terminating] using hxt) ht
        · exact ⟨x, hx, hxt⟩
      simp [awaitSignals, ht, ih hrest]

/-- The loop of `main` stays blocked while no terminating signal arrives. -/
theorem awaitSignals_of_quiet {σ H : Type} (pkg : HandyPkg σ H) (defers : List Deferred)
    (signals : List Nat) (wd : World σ H) (hs : ∀ s ∈ signals, terminating s = false) :
    awaitSignals pkg defers signals wd = { world := wd, exit := none } := by
  induction signals with
  | nil => simp [awaitSignals]
  | cons s rest ih =>
    have ht : ¬ (s = SIGKILL ∨ s = SIGINT ∨ s = SIGTERM) := by
      simpa [terminating] using hs s (List.mem_cons_self _ _)
    simp only [awaitSignals, ht, if_false]
    exact ih (fun x hx => hs x (List.mem_cons_of_mem _ hx))

/-- The effects of lines 59-81: two kinds of log lines and the call of `Listen`. -/
theorem mainPrelude_trace {σ H : Type} (env : Env) (s0 : σ) :
    (mainPrelude env s0 : World σ H).handy = s0 ∧
    (mainPrelude env s0 : World σ H).gLogger = logSink env ∧
    ∀ e ∈ (mainPrelude env s0 : World σ H).trace,
      (∃ msg, e = .stdLog msg) ∨ (∃ msg, e = .log (logSink env) msg) ∨
        ∃ socket, e = .listen socket := by
  cases hl : env.logFileOpens <;> simp [mainPrelude, World.emit, World.logln, hl]

/-- C3, as the code has it: when the signal loop of the daemon receives a
terminating signal, `main` returns, and its deferred calls run last in, first
out: `h.Stop()` first and `l.Close()` after it, both only then. -/
theorem main_shutdown_order {σ H : Type} (pkg : HandyPkg σ H) (f : Flags) (env : Env) (s0 : σ)
    (hb : env.bindOk = true) (hl : f.list = false)
    (hs : ∃ s ∈ env.signals, terminating s = true) :
    (main pkg f env s0).exit = some 0 ∧
    ∃ pre : List (Effect H),
      (main pkg f env s0).world.trace =
        pre ++ [.log (logSink env) (str "gracefully exit with signal"), .stop, .close] ∧
      Effect.stop ∉ pre ∧ Effect.close ∉ pre := by
  obtain ⟨more, hmore, hlog, hkinds⟩ := parseParams_trace pkg (resolveRoot f env)
    (resolvePattern f env) f.port f.remove (mainPrelude env s0)
  have hpre := (mainPrelude_trace (H := H) env s0).2.2
  have hsink : (((parseParams pkg (resolveRoot f env) (resolvePattern f env) f.port f.remove
      (mainPrelude env s0)).2.emit Effect.serve).emit Effect.notify).gLogger = logSink env := by
    simp only [World.emit, hlog, (mainPrelude_trace (H := H) env s0).2.1]
  simp only [main, hb, hl, daemonWait, Bool.not_true, Bool.false_eq_true, if_false]
  rw [awaitSignals_of_terminating pkg env.signals _ hs, hsink]
  refine ⟨rfl, _, rfl, ?_, ?_⟩
  · simp only [World.emit, World.logln, hmore, List.mem_append, List.mem_cons, List.mem_singleton,
      List.not_mem_nil, not_or]
    refine ⟨⟨⟨?_, by simp, ?_⟩, by simp⟩, by simp⟩
    · intro hmem
      rcases hpre _ hmem with ⟨m, hm⟩ | ⟨m, hm⟩ | ⟨m, hm⟩ <;> cases hm
    · intro hmem
      rcases hkinds _ hmem with hd | ⟨m, hm⟩
      · simp [Effect.isDispatch] at hd
      · cases hm
  · simp only [World.emit, World.logln, hmore, List.mem_append, List.mem_cons, List.mem_singleton,
      List.not_mem_nil, not_or]
    refine ⟨⟨⟨?_, by simp, ?_⟩, by simp⟩, by simp⟩
    · intro hmem
      rcases hpre _ hmem with ⟨m, hm⟩ | ⟨m, hm⟩ | ⟨m, hm⟩ <;> cases hm
    · intro hmem
      rcases hkinds _ hmem with hd | ⟨m, hm⟩
      · simp [Effect.isDispatch] at hd
      · cases hm

/-- C3 on a daemon started with `-port 8080 -dir /srv/a -alias a` that receives
an interrupt. -/
theorem main_shutdown_order_witness :
    daemonEnv.bindOk = true ∧ addFlags.list = false ∧
    (∃ s ∈ daemonEnv.signals, terminating s = true) ∧
    (main specHandy addFlags daemonEnv emptyRegistry).exit = some 0 ∧
    ∃ pre : List (Effect Int),
      (main specHandy addFlags daemonEnv emptyRegistry).world.trace =
        pre ++ [.log .logFile (str "gracefully exit with signal"), .stop, .close] ∧
      Effect.stop ∉ pre ∧ Effect.close ∉ pre :=
  ⟨rfl, rfl, ⟨SIGINT, by decide, by decide⟩,
    main_shutdown_order specHandy addFlags daemonEnv emptyRegistry rfl rfl
      ⟨SIGINT, by decide, by decide⟩⟩

/-- C3 fails as stated: in the trace of a daemon that receives an interrupt,
`h.Stop()` comes before `l.Close()`, and `l.Close()` does not come before
`h.Stop()`. -/
theorem stop_precedes_close :
    (main specHandy addFlags daemonEnv emptyRegistry).exit = some 0 ∧
    (main specHandy addFlags daemonEnv emptyRegistry).world.trace =
      [.log .logFile (str "parsed params."), .listen (str "/tmp/handyhttpd.sock"), .find 8080, .new 8080,
        .add 8080 (str "/srv/a") (str "a"), .start 8080, .serve, .notify,
        .log .logFile (str "gracefully exit with signal"), .stop, .close] ∧
    occursBefore Effect.stop Effect.close
      (main specHandy addFlags daemonEnv emptyRegistry).world.trace = true ∧
    occursBefore Effect.close Effect.stop
      (main specHandy addFlags daemonEnv emptyRegistry).world.trace = false := by
  decide

/-- A line of `gLogger` is no print of the program, and is on standard output
only when the log file could not be opened. -/
theorem logOnly_log {H : Type} (env : Env) (msg : GoString) :
    (Effect.log (logSink env) msg : Effect H).logOnly env := by
  cases hl : env.logFileOpens <;> simp [Effect.logOnly, logSink, Effect.isStdout, hl]

/-- An effect that does not touch standard output. -/
theorem logOnly_of_silent {H : Type} (env : Env) (e : Effect H) (h : e.isStdout = false) :
    e.logOnly env := by
  refine ⟨?_, ?_⟩
  · intro bytes hb
    subst hb
    simp [Effect.isStdout] at h
  · intro ht
    rw [h] at ht
    exact absurd ht (by decide)

/-- Lines 59-81 print nothing of their own on standard output. -/
theorem mainPrelude_logOnly {σ H : Type} (env : Env) (s0 : σ) :
    ∀ e ∈ (mainPrelude env s0 : World σ H).trace, e.logOnly env := by
  intro e he
  rcases (mainPrelude_trace (H := H) env s0).2.2 e he with ⟨m, hm⟩ | ⟨m, hm⟩ | ⟨m, hm⟩
  · subst hm; exact logOnly_of_silent env _ rfl
  · subst hm; exact logOnly_log env m
  · subst hm; exact logOnly_of_silent env _ rfl

/-- C4, as the code has it: when the forwarder's request fails with a transport
error or is answered with a status other than 200, the invocation writes one
line to `gLogger` (for a reply, the line with its status code), never copies the
reply body to standard output, leaves the registry alone and returns from
`main`, which is exit status 0.  Standard output is touched only when the log
file could not be opened, and then only by the lines of `gLogger`. -/
theorem forwarder_failure_exit {σ H : Type} (pkg : HandyPkg σ H) (f : Flags) (env : Env)
    (s0 : σ) (hb : env.bindOk = false)
    (hfail :
      env.httpGet (forwarderURL f (resolveRoot f env) (resolvePattern f env)) = .failed ∨
      ∃ status body,
        env.httpGet (forwarderURL f (resolveRoot f env) (resolvePattern f env))
          = .response status body ∧ status ≠ 200) :
    (main pkg f env s0).exit = some 0 ∧
    (∀ bytes, Effect.stdout bytes ∉ (main pkg f env s0).world.trace) ∧
    (∀ e ∈ (main pkg f env s0).world.trace, e.isStdout = true →
      env.logFileOpens = false ∧ ∃ msg, e = .log .stdout msg) ∧
    (main pkg f env s0).world.handy = s0 ∧
    ∃ msg, (main pkg f env s0).world.trace.getLast? = some (.log (logSink env) msg) ∧
      ∀ status body,
        env.httpGet (forwarderURL f (resolveRoot f env) (resolvePattern f env))
          = .response status body →
        msg = str "handy server denies the request. code: " ++ fmtInt status := by
  have hpre := mainPrelude_trace (H := H) env s0
  have hquiet := mainPrelude_logOnly (H := H) env s0
  have hall : ∀ msg : GoString, ∀ e ∈ (mainPrelude env s0 : World σ H).trace ++
      [Effect.get (forwarderURL f (resolveRoot f env) (resolvePattern f env))] ++
      [Effect.log (logSink env) msg], e.logOnly env := by
    intro msg e he
    simp only [List.mem_append, List.mem_singleton] at he
    rcases he with (he | he) | he
    · exact hquiet e he
    · subst he; exact logOnly_of_silent env _ rfl
    · subst he; exact logOnly_log env msg
  rcases hfail with hf | ⟨status, body, hf, hne⟩
  · simp only [main, hb, forwarder, hf, World.emit, World.logln, hpre.2.1, Bool.not_false,
      if_true]
    refine ⟨trivial, fun bytes hm => (hall _ _ hm).1 bytes rfl,
      fun e he => (hall _ e he).2, hpre.1, str "cannot connect handy server. err:", by simp, ?_⟩
    intro status body hc
    cases hc
  · simp only [main, hb, forwarder, hf, hne, World.emit, World.logln, hpre.2.1, Bool.not_false,
      if_true, ne_eq, not_false_eq_true]
    refine ⟨trivial, fun bytes hm => (hall _ _ hm).1 bytes rfl,
      fun e he => (hall _ e he).2, hpre.1,
      str "handy server denies the request. code: " ++ fmtInt status, by simp, ?_⟩
    intro status2 body2 hc
    cases hc
    rfl

/-- C4 on a forwarder that cannot open its log file and whose daemon answers
with status 500: the line with the code goes to standard output, the body does
not, and the exit status is 0. -/
theorem forwarder_failure_exit_witness :
    (main specHandy addFlags (noLogFileEnv (.response 500 (str "oops"))) emptyRegistry).exit
      = some 0 ∧
    (∀ bytes, Effect.stdout bytes ∉
      (main specHandy addFlags (noLogFileEnv (.response 500 (str "oops")))
        emptyRegistry).world.trace) ∧
    (main specHandy addFlags (noLogFileEnv (.response 500 (str "oops")))
        emptyRegistry).world.trace =
      [.stdLog (str "cannot open log file to write. filename:"),
        .stdLog (str "print log to stdout now"), .log .stdout (str "parsed params."),
        .listen (str "/tmp/handyhttpd.sock"),
        .get (str "http://localhost/?verb=add&alias=a&dir=%2Fsrv%2Fa&port=8080"),
        .log .stdout (str "handy server denies the request. code: 500")] :=
  have h := forwarder_failure_exit specHandy addFlags (noLogFileEnv (.response 500 (str "oops")))
    emptyRegistry rfl (Or.inr ⟨500, str "oops", rfl, by decide⟩)
  ⟨h.1, h.2.1, by decide⟩

/-- C4 fails as stated: a forwarder whose request fails with a transport error,
and one whose daemon answers 500, both end with exit status 0, not with a
non-zero status. -/
theorem failed_forward_exits_zero :
    (main specHandy addFlags (clientEnv .failed) emptyRegistry).exit = some 0 ∧
    (main specHandy addFlags (clientEnv (.response 500 (str "oops"))) emptyRegistry).exit
      = some 0 ∧
    (main specHandy addFlags (clientEnv .failed) emptyRegistry).world.trace =
      [.log .logFile (str "parsed params."), .listen (str "/tmp/handyhttpd.sock"),
        .get (str "http://localhost/?verb=add&alias=a&dir=%2Fsrv%2Fa&port=8080"),
        .log .logFile (str "cannot connect handy server. err:")] := by
  decide

/-- C9: the `"/quit"` handler writes its line before it raises the interrupt,
so the reply (status 200, the one line) is written before the signal loop of
`main` can return and close the listener. -/
theorem quit_replies_before_shutdown {σ H : Type} (pkg : HandyPkg σ H) (wd : World σ H) :
    (quitHandler wd ResponseWriter.fresh).world.trace =
      wd.trace ++ [.write (str "Handy server is quiting now\n"), .signal SIGINT] ∧
    (quitHandler wd ResponseWriter.fresh).w =
      { status := some 200, body := str "Handy server is quiting now\n" } ∧
    (quitHandler wd ResponseWriter.fresh).world.handy = wd.handy ∧
    (awaitSignals pkg mainDefers [SIGINT] (quitHandler wd ResponseWriter.fresh).world).world.trace
      = wd.trace ++ [.write (str "Handy server is quiting now\n"), .signal SIGINT,
          .log wd.gLogger (str "gracefully exit with signal"), .stop, .close] := by
  refine ⟨?_, ?_, rfl, ?_⟩
  · simp [quitHandler, World.emit, World.logln, quitLine]
  · simp [quitHandler, ResponseWriter.Write, ResponseWriter.fresh, quitLine]
  · rw [awaitSignals_of_terminating pkg [SIGINT] _ ⟨SIGINT, by simp, by decide⟩]
    simp [quitHandler, World.emit, World.logln, quitLine]

/-- C9 on the empty registry. -/
theorem quit_replies_before_shutdown_witness :
    occursBefore (Effect.write (str "Handy server is quiting now\n")) (Effect.signal SIGINT)
      (quitHandler emptyWorld ResponseWriter.fresh).world.trace = true ∧
    occursBefore (Effect.write (str "Handy server is quiting now\n")) Effect.close
      (awaitSignals specHandy mainDefers [SIGINT]
        (quitHandler emptyWorld ResponseWriter.fresh).world).world.trace = true := by
  rw [(quit_replies_before_shutdown specHandy emptyWorld).1,
    (quit_replies_before_shutdown specHandy emptyWorld).2.2.2]
  decide

/-- The loop of `main` adds no output to standard output, and nothing at all
unless it returns. -/
theorem awaitSignals_cases {σ H : Type} (pkg : HandyPkg σ H) (signals : List Nat)
    (wd : World σ H) :
    awaitSignals pkg mainDefers signals wd = { world := wd, exit := none } ∨
    awaitSignals pkg mainDefers signals wd =
      { world :=
          { handy := pkg.Stop wd.handy,
            trace := wd.trace ++
              [.log wd.gLogger (str "gracefully exit with signal"), .stop, .close],
            gLogger := wd.gLogger },
        exit := some 0 } := by
  by_cases hs : ∃ s ∈ signals, terminating s = true
  · exact Or.inr (awaitSignals_of_terminating pkg signals wd hs)
  · refine Or.inl (awaitSignals_of_quiet pkg mainDefers signals wd ?_)
    intro s hmem
    cases ht : terminating s
    · rfl
    · exact absurd ⟨s, hmem, ht⟩ hs

/-- C10: when the bind succeeds, the invocation prints "No server is running",
closes the listener and exits without a dispatch exactly when the list flag is
set.  Otherwise it prints nothing of its own (standard output is touched only by
lines of `gLogger`, and only when the log file could not be opened), applies its
own request through `parseParams` with the resolved rootDir and alias and the
remove flag, starts the command server and waits in the signal loop, where it
stays while no terminating signal arrives.  The quit flag changes nothing. -/
theorem main_bind_success {σ H : Type} (pkg : HandyPkg σ H) (f : Flags) (env : Env) (s0 : σ)
    (hb : env.bindOk = true) :
    (f.list = true →
      (main pkg f env s0).world.trace =
        (mainPrelude env s0 : World σ H).trace ++
          [.stdout (str "No server is running\n"), .close] ∧
      (main pkg f env s0).exit = some 0 ∧
      (main pkg f env s0).world.handy = s0) ∧
    (f.list = false →
      main pkg f env s0 =
        daemonWait pkg env.signals
          ((parseParams pkg (resolveRoot f env) (resolvePattern f env) f.port f.remove
            (mainPrelude env s0)).2.emit .serve) ∧
      (∀ bytes, Effect.stdout bytes ∉ (main pkg f env s0).world.trace) ∧
      (∀ e ∈ (main pkg f env s0).world.trace, e.isStdout = true →
        env.logFileOpens = false ∧ ∃ msg, e = .log .stdout msg) ∧
      Effect.serve ∈ (main pkg f env s0).world.trace ∧
      ((∀ s ∈ env.signals, terminating s = false) → (main pkg f env s0).exit = none)) ∧
    main pkg { f with quit := !f.quit } env s0 = main pkg f env s0 := by
  refine ⟨?_, ?_, ?_⟩
  · intro hl
    have hpre := mainPrelude_trace (H := H) env s0
    simp [main, hb, hl, World.emit, hpre.1]
  · intro hl
    obtain ⟨more, hmore, hlog, hkinds⟩ := parseParams_trace pkg (resolveRoot f env)
      (resolvePattern f env) f.port f.remove (mainPrelude env s0)
    have hsink := (mainPrelude_trace (H := H) env s0).2.1
    have hpre := mainPrelude_logOnly (H := H) env s0
    have hmain : main pkg f env s0 =
        daemonWait pkg env.signals
          ((parseParams pkg (resolveRoot f env) (resolvePattern f env) f.port f.remove
            (mainPrelude env s0)).2.emit .serve) := by
      simp [main, hb, hl]
    have hquiet : ∀ e ∈ (mainPrelude env s0 : World σ H).trace ++ .find f.port :: more ++
        [Effect.serve, Effect.notify], e.logOnly env := by
      intro e he
      simp only [List.mem_append, List.mem_cons, List.mem_singleton, List.not_mem_nil,
        or_false] at he
      rcases he with (he | he | he) | he | he
      · exact hpre e he
      · subst he; exact logOnly_of_silent env _ rfl
      · rcases hkinds e he with hd | ⟨m, hm⟩
        · apply logOnly_of_silent
          cases e <;> simp_all [Effect.isDispatch, Effect.isStdout]
        · subst hm
          rw [hsink]
          exact logOnly_log env m
      · subst he; exact logOnly_of_silent env _ rfl
      · subst he; exact logOnly_of_silent env _ rfl
    have hrun : ∀ e ∈ (main pkg f env s0).world.trace, e.logOnly env := by
      rw [hmain]
      unfold daemonWait
      rcases awaitSignals_cases pkg env.signals
        (((parseParams pkg (resolveRoot f env) (resolvePattern f env) f.port f.remove
          (mainPrelude env s0)).2.emit .serve).emit .notify) with hc | hc
      · rw [hc]
        intro e he
        apply hquiet e
        simpa [World.emit, hmore] using he
      · rw [hc]
        intro e he
        simp only [World.emit, hmore, hlog, hsink, List.mem_append, List.mem_cons,
          List.mem_singleton, List.not_mem_nil, or_false] at he
        rcases he with he | he | he | he
        · apply hquiet e
          simp only [List.mem_append, List.mem_cons, List.mem_singleton, List.not_mem_nil,
            or_false]
          tauto
        · subst he; exact logOnly_log env _
        · subst he; exact logOnly_of_silent env _ rfl
        · subst he; exact logOnly_of_silent env _ rfl
    refine ⟨hmain, fun bytes hm => (hrun _ hm).1 bytes rfl, fun e he => (hrun e he).2, ?_, ?_⟩
    · rw [hmain]
      unfold daemonWait
      rcases awaitSignals_cases pkg env.signals
        (((parseParams pkg (resolveRoot f env) (resolvePattern f env) f.port f.remove
          (mainPrelude env s0)).2.emit .serve).emit .notify) with hc | hc <;>
        rw [hc] <;> simp [World.emit]
    · intro hs
      rw [hmain]
      unfold daemonWait
      rw [awaitSignals_of_quiet pkg mainDefers env.signals _ hs]
  · simp [main, hb, resolveRoot, resolvePattern]

/-- C10 on a host without a daemon: `-quit -port 8080 -dir /srv/a -alias a`
becomes the daemon and adds the mount; when the log file cannot be opened its
log lines, and nothing else, are on standard output. -/
theorem main_bind_success_witness :
    daemonEnv.bindOk = true ∧
    (main specHandy { addFlags with quit := true }
      { daemonEnv with logFileOpens := false, signals := [] } emptyRegistry).world.trace =
      [.stdLog (str "cannot open log file to write. filename:"),
        .stdLog (str "print log to stdout now"), .log .stdout (str "parsed params."),
        .listen (str "/tmp/handyhttpd.sock"), .find 8080, .new 8080,
        .add 8080 (str "/srv/a") (str "a"), .start 8080, .serve, .notify] ∧
    main specHandy { addFlags with quit := true } { daemonEnv with signals := [] } emptyRegistry =
      { world :=
          { handy := { byPort := [{ port := 8080, mounts := [(str "a", str "/srv/a")],
                                    listening := true }],
                       lastPort := 8080, busy := [80] },
            trace := [.log .logFile (str "parsed params."), .listen (str "/tmp/handyhttpd.sock"),
              .find 8080, .new 8080, .add 8080 (str "/srv/a") (str "a"), .start 8080, .serve,
              .notify],
            gLogger := .logFile },
        exit := none } :=
  ⟨rfl, by decide, by
    rw [((main_bind_success specHandy { addFlags with quit := true }
      { daemonEnv with signals := [] } emptyRegistry rfl).2.1 rfl).1]
    decide⟩

/-- A value list read from the map is one of its entries. -/
theorem Values.get_mem (m : Values) (key : GoString) (vs : List GoString)
    (h : m.get key = some vs) : (key, vs) ∈ m := by
  induction m with
  | nil => simp [Values.get] at h
  | cons p rest ih =>
    obtain ⟨k, ws⟩ := p
    by_cases hk : k = key
    · simp [Values.get, hk] at h
      simp [hk, h]
    · simp only [Values.get, hk, if_false] at h
      exact List.mem_cons_of_mem _ (ih h)

/-- The statement `m[key] = append(m[key], value)` leaves no key without a value. -/
theorem Values.add_filled (m : Values) (key value : GoString) (h : m.filled) :
    (m.add key value).filled := by
  induction m with
  | nil =>
    intro p hp
    simp [Values.add] at hp
    subst hp
    simp
  | cons q rest ih =>
    obtain ⟨k, ws⟩ := q
    have hrest : Values.filled rest := fun p hp => h p (List.mem_cons_of_mem _ hp)
    by_cases hk : k = key
    · intro p hp
      simp only [Values.add, hk, if_true, List.mem_cons] at hp
      rcases hp with hp | hp
      · subst hp
        simp
      · exact hrest p hp
    · intro p hp
      simp only [Values.add, hk, if_false, List.mem_cons] at hp
      rcases hp with hp | hp
      · subst hp
        exact h (k, ws) (List.mem_cons_self _ _)
      · exact ih hrest p hp

/-- One turn of the loop of `parseQuery` leaves no key without a value. -/
theorem parsePair_filled (m : Values) (key : GoString) (h : m.filled) :
    (parsePair m key).filled := by
  unfold parsePair
  split
  · exact h
  · split
    · exact h
    · split
      · exact h
      · split
        · exact h
        · exact Values.add_filled m _ _ h

/-- The loop of `parseQuery` leaves no key without a value. -/
theorem parseQueryLoop_filled (fuel : Nat) (m : Values) (query : GoString) (h : m.filled) :
    (parseQueryLoop fuel m query).filled := by
  induction fuel generalizing m query with
  | zero => simpa [parseQueryLoop] using h
  | succ n ih =>
    unfold parseQueryLoop
    split
    · exact h
    · exact ih _ _ (parsePair_filled m _ h)

/-- The form of a request has at least one value under each of its keys. -/
theorem ParseForm_filled (r : Request) : (ParseForm r).filled := by
  unfold ParseForm parseQuery
  apply parseQueryLoop_filled
  apply parseQueryLoop_filled
  intro p hp
  simp at hp

/-- The handler takes the bad-request branch when a key is absent. -/
theorem decodeForm_of_absent (form : Values) (h : keyAbsent form) :
    decodeForm form = .badRequest := by
  unfold decodeForm
  rcases h with h | h | h | h <;> rw [h] <;> split <;> simp_all

/-- The handler reads the first value of each key when all four are present. -/
theorem decodeForm_of_present (form : Values) (hf : form.filled) (h : ¬ keyAbsent form) :
    ∃ verb vs al als dir ds p ps,
      form.get (str "verb") = some (verb :: vs) ∧ form.get (str "alias") = some (al :: als) ∧
      form.get (str "dir") = some (dir :: ds) ∧ form.get (str "port") = some (p :: ps) ∧
      decodeForm form = .command verb dir al (Atoi p).1 (decide (verb = str "remove")) := by
  simp only [keyAbsent, not_or] at h
  obtain ⟨hv, ha, hd, hp⟩ := h
  have first : ∀ key, form.get key ≠ none → ∃ x xs, form.get key = some (x :: xs) := by
    intro key hne
    cases hg : form.get key with
    | none => exact absurd hg hne
    | some l =>
      cases l with
      | nil => exact absurd rfl (hf _ (Values.get_mem form key [] hg))
      | cons x xs => exact ⟨x, xs, rfl⟩
  obtain ⟨verb, vs, hv⟩ := first _ hv
  obtain ⟨al, als, ha⟩ := first _ ha
  obtain ⟨dir, ds, hd⟩ := first _ hd
  obtain ⟨p, ps, hp⟩ := first _ hp
  exact ⟨verb, vs, al, als, dir, ds, p, ps, hv, ha, hd, hp, by simp [decodeForm, hv, ha, hd, hp]⟩

/-- C1: the `"/"` handler replies 400 without a call into the `handy` package
and without a change of the registry exactly when one of the keys verb, alias,
dir, port is absent from the parsed form; when all four are present it calls
`parseParams` (the first call is `Find`) and the reply is not 400 but 200. -/
theorem rootHandler_badRequest_iff {σ H : Type} (pkg : HandyPkg σ H) (r : Request)
    (wd : World σ H) :
    ((((rootHandler pkg r wd ResponseWriter.fresh).w.replyStatus = 400 ∧
        (rootHandler pkg r wd ResponseWriter.fresh).world.handy = wd.handy ∧
        ∃ more, (rootHandler pkg r wd ResponseWriter.fresh).world.trace = wd.trace ++ more ∧
          ∀ e ∈ more, e.isDispatch = false)) ↔ keyAbsent (ParseForm r)) ∧
    (¬ keyAbsent (ParseForm r) →
      (rootHandler pkg r wd ResponseWriter.fresh).w.replyStatus = 200 ∧
      (rootHandler pkg r wd ResponseWriter.fresh).panicked = false ∧
      ∃ port more, (rootHandler pkg r wd ResponseWriter.fresh).world.trace =
        wd.trace ++ .log wd.gLogger (str "handle a verb request. url:") :: .find port :: more) := by
  have present : ¬ keyAbsent (ParseForm r) →
      (rootHandler pkg r wd ResponseWriter.fresh).w.replyStatus = 200 ∧
      (rootHandler pkg r wd ResponseWriter.fresh).panicked = false ∧
      ∃ port more, (rootHandler pkg r wd ResponseWriter.fresh).world.trace =
        wd.trace ++ .log wd.gLogger (str "handle a verb request. url:") :: .find port :: more := by
    intro hp
    obtain ⟨verb, vs, al, als, dir, ds, p, ps, -, -, -, -, hdec⟩ :=
      decodeForm_of_present (ParseForm r) (ParseForm_filled r) hp
    obtain ⟨more, hmore, -⟩ := parseParams_trace pkg dir al (Atoi p).1
      (decide (verb = str "remove")) (wd.logln (str "handle a verb request. url:"))
    simp only [rootHandler, hdec]
    split
    · refine ⟨by simp [ResponseWriter.Write, ResponseWriter.fresh,
        ResponseWriter.replyStatus], rfl, (Atoi p).1,
        more ++ [.lastPort, .write (confirmation verb dir al (pkg.LastPort
          (parseParams pkg dir al (Atoi p).1 (decide (verb = str "remove"))
            (wd.logln (str "handle a verb request. url:"))).2.handy))], ?_⟩
      simp only [World.emit, World.logln] at hmore ⊢
      simp [hmore]
    · refine ⟨by simp [ResponseWriter.fresh, ResponseWriter.replyStatus], rfl, (Atoi p).1,
        more, ?_⟩
      simp only [World.emit, World.logln] at hmore ⊢
      simp [hmore]
  refine ⟨⟨?_, ?_⟩, present⟩
  · intro hleft
    by_contra hp
    have h200 := (present hp).1
    rw [hleft.1] at h200
    exact absurd h200 (by decide)
  · intro hab
    simp only [rootHandler, decodeForm_of_absent _ hab]
    refine ⟨by simp [ResponseWriter.WriteHeader, ResponseWriter.fresh,
      ResponseWriter.replyStatus], rfl, [.log wd.gLogger (str "handle a verb request. url:"),
        .log wd.gLogger (str "missing required query string params"), .writeHeader 400],
      ?_, ?_⟩
    · simp [World.emit, World.logln]
    · intro e he
      simp only [List.mem_cons, List.mem_singleton, List.not_mem_nil, or_false] at he
      rcases he with he | he | he <;> subst he <;> rfl

/-- C5, as the code has it: when a well-formed mutate command cannot get a
server (`Find` finds nothing and `New` gives `nil`), the daemon logs "cannot
create new handy server" and the handler writes nothing: the reply is the
implicit status 200 with an empty body, without a confirmation line. -/
theorem rootHandler_failed_dispatch {σ H : Type} (pkg : HandyPkg σ H) (r : Request)
    (wd : World σ H) (verb dir al : GoString) (port : Int) (remove : Bool)
    (hdec : decodeForm (ParseForm r) = .command verb dir al port remove)
    (hf : (pkg.Find port wd.handy).1 = none)
    (hn : (pkg.New port (pkg.Find port wd.handy).2).1 = none) :
    (rootHandler pkg r wd ResponseWriter.fresh).w.replyStatus = 200 ∧
    (rootHandler pkg r wd ResponseWriter.fresh).w.body = [] ∧
    (rootHandler pkg r wd ResponseWriter.fresh).panicked = false ∧
    (rootHandler pkg r wd ResponseWriter.fresh).world.trace =
      wd.trace ++ [.log wd.gLogger (str "handle a verb request. url:"), .find port, .new port,
        .log wd.gLogger (str "cannot create new handy server")] := by
  have hpp := parseParams_of_failed pkg dir al port remove
    (wd.logln (str "handle a verb request. url:")) hf hn
  simp only [rootHandler, hdec, hpp]
  simp [World.emit, World.logln, ResponseWriter.fresh, ResponseWriter.replyStatus]

/-- C5 on an add for port 80, which another program holds. -/
theorem rootHandler_failed_dispatch_witness :
    (rootHandler specHandy addOnBusyPort emptyWorld ResponseWriter.fresh).w.replyStatus = 200 ∧
    (rootHandler specHandy addOnBusyPort emptyWorld ResponseWriter.fresh).w.body = [] ∧
    (rootHandler specHandy addOnBusyPort emptyWorld ResponseWriter.fresh).panicked = false ∧
    (rootHandler specHandy addOnBusyPort emptyWorld ResponseWriter.fresh).world.trace =
      emptyWorld.trace ++ [.log .logFile (str "handle a verb request. url:"), .find 80, .new 80,
        .log .logFile (str "cannot create new handy server")] :=
  rootHandler_failed_dispatch specHandy addOnBusyPort emptyWorld (str "add") (str "/srv/a")
    (str "a") 80 false (by decide) (by decide) (by decide)

/-- C5 fails as stated: an add for the busy port 80 has all four keys, its
dispatch fails (`parseParams` returns false), and the reply has status 200 and an
empty body: neither a non-200 status nor a body that states the error. -/
theorem failed_dispatch_replies_200 :
    ¬ keyAbsent (ParseForm addOnBusyPort) ∧
    (parseParams specHandy (str "/srv/a") (str "a") 80 false
      (emptyWorld.logln (str "handle a verb request. url:"))).1 = false ∧
    (rootHandler specHandy addOnBusyPort emptyWorld ResponseWriter.fresh).w.replyStatus = 200 ∧
    (rootHandler specHandy addOnBusyPort emptyWorld ResponseWriter.fresh).w.body = [] := by
  refine ⟨?_, by decide, by decide, by decide⟩
  unfold keyAbsent
  decide

/-- C8: when all four keys are present and the dispatch succeeds, the reply has
status 200 and its body is the one line `<verb> dir <dir> as /<alias> on port
<P>` with a newline, where verb, dir and alias are the first values of their
keys and `P` is `%d` of `h.LastPort()` read from the registry after the dispatch. -/
theorem rootHandler_confirmation {σ H : Type} (pkg : HandyPkg σ H) (r : Request)
    (wd : World σ H) (verb dir al p : GoString) (vs ds als ps : List GoString)
    (hv : (ParseForm r).get (str "verb") = some (verb :: vs))
    (ha : (ParseForm r).get (str "alias") = some (al :: als))
    (hd : (ParseForm r).get (str "dir") = some (dir :: ds))
    (hp : (ParseForm r).get (str "port") = some (p :: ps))
    (hok : (parseParams pkg dir al (Atoi p).1 (decide (verb = str "remove"))
      (wd.logln (str "handle a verb request. url:"))).1 = true) :
    (rootHandler pkg r wd ResponseWriter.fresh).w.replyStatus = 200 ∧
    (rootHandler pkg r wd ResponseWriter.fresh).w.body =
      verb ++ str " dir " ++ dir ++ str " as /" ++ al ++ str " on port " ++
        fmtInt (pkg.LastPort (parseParams pkg dir al (Atoi p).1 (decide (verb = str "remove"))
          (wd.logln (str "handle a verb request. url:"))).2.handy) ++ str "\n" ∧
    (rootHandler pkg r wd ResponseWriter.fresh).world.handy =
      (parseParams pkg dir al (Atoi p).1 (decide (verb = str "remove"))
        (wd.logln (str "handle a verb request. url:"))).2.handy ∧
    (rootHandler pkg r wd ResponseWriter.fresh).panicked = false := by
  have hdec : decodeForm (ParseForm r) =
      .command verb dir al (Atoi p).1 (decide (verb = str "remove")) := by
    simp [decodeForm, hv, ha, hd, hp]
  simp only [rootHandler, hdec, hok, if_true]
  simp [World.emit, World.logln, ResponseWriter.fresh, ResponseWriter.replyStatus, ResponseWriter.Write,
    confirmation]

/-- C8 on an add with port 0 after port 8080 was used: the line names 8080. -/
theorem rootHandler_confirmation_witness :
    (rootHandler specHandy addOnLastPort twoMounts ResponseWriter.fresh).w.replyStatus = 200 ∧
    (rootHandler specHandy addOnLastPort twoMounts ResponseWriter.fresh).w.body =
      str "add dir /srv/a as /a on port 8080\n" := by
  have h := rootHandler_confirmation specHandy addOnLastPort twoMounts (str "add") (str "/srv/a")
    (str "a") (str "0") [] [] [] [] (by decide) (by decide) (by decide) (by decide) (by decide)
  refine ⟨h.1, ?_⟩
  rw [h.2.1]
  decide

/-- The two hex digits of an escaped byte decode to the byte. -/
theorem unhex_upperhex (c : Byte) :
    ishex (upperhex.getD (c.val / 16) 0) = true ∧ ishex (upperhex.getD (c.val % 16) 0) = true ∧
    (⟨(unhex (upperhex.getD (c.val / 16) 0) * 16 + unhex (upperhex.getD (c.val % 16) 0)) % 256,
      Nat.mod_lt _ (by decide)⟩ : Byte) = c := by
  revert c
  decide

/-- The two hex digits of an escaped byte are bytes of a query. -/
theorem queryByte_upperhex (c : Byte) :
    queryByte (upperhex.getD (c.val / 16) 0) = true ∧
    queryByte (upperhex.getD (c.val % 16) 0) = true := by
  revert c
  decide

/-- A byte of a query is none of the separators of a URL or of a query. -/
theorem queryByte_not_separator (c : Byte) (h : queryByte c = true) :
    c ≠ Byte.ofChar '#' ∧ c ≠ Byte.ofChar '?' ∧ c ≠ Byte.ofChar '&' ∧ c ≠ Byte.ofChar ';' ∧
    c ≠ Byte.ofChar '=' := by
  revert c
  decide

/-- A byte that is not escaped is neither `%` nor `+` nor a space. -/
theorem not_shouldEscape (c : Byte) (h : shouldEscape c = false) :
    c ≠ Byte.ofChar '%' ∧ c ≠ Byte.ofChar '+' ∧ c ≠ Byte.ofChar ' ' := by
  revert c
  decide

/-- Every byte that `QueryEscape` puts out is a byte of a query. -/
theorem QueryEscape_queryByte (s : GoString) : ∀ c ∈ QueryEscape s, queryByte c = true := by
  induction s with
  | nil => simp [QueryEscape]
  | cons a rest ih =>
    intro c hc
    unfold QueryEscape at hc
    split at hc
    · rcases List.mem_cons.mp hc with h | h
      · subst h; decide
      · exact ih c h
    · split at hc
      · simp only [List.mem_cons] at hc
        rcases hc with h | h | h | h
        · subst h; decide
        · subst h; exact (queryByte_upperhex a).1
        · subst h; exact (queryByte_upperhex a).2
        · exact ih c h
      · rename_i hne hse
        rcases List.mem_cons.mp hc with h | h
        · subst h
          simp only [Bool.not_eq_true] at hse
          simp [queryByte, hse]
        · exact ih c h

/-- The function `QueryUnescape` on a byte that is neither `%` nor `+`. -/
theorem QueryUnescape_plain (c : Byte) (rest : GoString) (h1 : c ≠ Byte.ofChar '%')
    (h2 : c ≠ Byte.ofChar '+') :
    QueryUnescape (c :: rest) = (QueryUnescape rest).map (fun t => c :: t) := by
  conv => lhs; unfold QueryUnescape
  simp only [h1, h2, if_false]

/-- The function `QueryUnescape` on `+`. -/
theorem QueryUnescape_plus (rest : GoString) :
    QueryUnescape (Byte.ofChar '+' :: rest) =
      (QueryUnescape rest).map (fun t => Byte.ofChar ' ' :: t) := by
  conv => lhs; unfold QueryUnescape
  have h1 : Byte.ofChar '+' ≠ Byte.ofChar '%' := by decide
  simp only [h1, if_false, if_true]

/-- The function `QueryUnescape` on `%` and two hex digits. -/
theorem QueryUnescape_percent (h1 h2 : Byte) (rest : GoString) (x1 : ishex h1 = true)
    (x2 : ishex h2 = true) :
    QueryUnescape (Byte.ofChar '%' :: h1 :: h2 :: rest) =
      (QueryUnescape rest).map
        (fun t => (⟨(unhex h1 * 16 + unhex h2) % 256, Nat.mod_lt _ (by decide)⟩ : Byte) :: t) := by
  conv => lhs; unfold QueryUnescape
  simp only [x1, x2, and_self, if_true]

/-- The function `QueryUnescape` undoes `QueryEscape`. -/
theorem QueryUnescape_QueryEscape (s : GoString) : QueryUnescape (QueryEscape s) = some s := by
  induction s with
  | nil => simp [QueryEscape, QueryUnescape]
  | cons a rest ih =>
    unfold QueryEscape
    split
    · rename_i hsp
      rw [QueryUnescape_plus, ih, hsp]
      rfl
    · split
      · have hx := unhex_upperhex a
        rw [QueryUnescape_percent _ _ _ hx.1 hx.2.1, ih, hx.2.2]
        rfl
      · rename_i hne hse
        simp only [Bool.not_eq_true] at hse
        have hn := not_shouldEscape a hse
        rw [QueryUnescape_plain _ _ hn.1 hn.2.1, ih]
        rfl

/-- The function `QueryUnescape` leaves a string without `%` and `+` as it is. -/
theorem QueryUnescape_of_plain (s : GoString)
    (h : ∀ c ∈ s, c ≠ Byte.ofChar '%' ∧ c ≠ Byte.ofChar '+') : QueryUnescape s = some s := by
  induction s with
  | nil => simp [QueryUnescape]
  | cons a rest ih =>
    have ha := h a (List.mem_cons_self _ _)
    rw [QueryUnescape_plain _ _ ha.1 ha.2, ih (fun c hc => h c (List.mem_cons_of_mem _ hc))]
    rfl

/-- The function `strings.Cut` on a string without the separator. -/
theorem cut_of_not_mem (sep : Byte) (s : GoString) (h : sep ∉ s) : cut sep s = (s, none) := by
  induction s with
  | nil => rfl
  | cons a rest ih =>
    have ha : a ≠ sep := fun e => h (e ▸ List.mem_cons_self _ _)
    have hr : sep ∉ rest := fun e => h (List.mem_cons_of_mem _ e)
    simp [cut, ha, ih hr]

/-- The function `strings.Cut` at the first separator. -/
theorem cut_append (sep : Byte) (a b : GoString) (h : sep ∉ a) :
    cut sep (a ++ sep :: b) = (a, some b) := by
  induction a with
  | nil => simp [cut]
  | cons x rest ih =>
    have hx : x ≠ sep := fun e => h (e ▸ List.mem_cons_self _ _)
    have hr : sep ∉ rest := fun e => h (List.mem_cons_of_mem _ e)
    simp [cut, hx, ih hr]

/-- The digits that `%d` prints are read back by `strconv`. -/
theorem parseDigits_fmtDigits (fuel u : Nat) (acc : GoString) (h : u < fuel) :
    parseDigits 0 (fmtDigits fuel u acc) = parseDigits u acc := by
  induction fuel generalizing u acc with
  | zero => omega
  | succ n ih =>
    unfold fmtDigits
    split
    · rename_i h10
      rw [ih (u / 10) _ (by omega)]
      have hd : 48 ≤ 48 + u % 10 ∧ 48 + u % 10 ≤ 57 := by omega
      simp only [parseDigits, hd, and_self, if_true]
      congr 1
      omega
    · rename_i h10
      have hd : 48 ≤ 48 + u % 10 ∧ 48 + u % 10 ≤ 57 := by omega
      simp only [parseDigits, hd, and_self, if_true]
      congr 1
      omega

/-- The verb `%d` prints at least one byte. -/
theorem fmtDigits_ne_nil (fuel u : Nat) (acc : GoString) (h : fuel ≠ 0 ∨ acc ≠ []) :
    fmtDigits fuel u acc ≠ [] := by
  induction fuel generalizing u acc with
  | zero =>
    rcases h with h | h
    · exact absurd rfl h
    · simpa [fmtDigits] using h
  | succ n ih =>
    unfold fmtDigits
    split
    · exact ih _ _ (Or.inr (by simp))
    · simp

/-- A string that `strconv` reads as digits consists of digits. -/
theorem parseDigits_some (s : GoString) (a v : Nat) (h : parseDigits a s = some v) :
    ∀ c ∈ s, 48 ≤ c.val ∧ c.val ≤ 57 := by
  induction s generalizing a with
  | nil => simp
  | cons x rest ih =>
    unfold parseDigits at h
    split at h
    · rename_i hx
      intro c hc
      rcases List.mem_cons.mp hc with e | e
      · subst e; exact hx
      · exact ih _ h c e
    · simp at h

/-- A digit is a byte of a query and is neither `%` nor `+` nor a sign. -/
theorem digit_plain (c : Byte) (h : 48 ≤ c.val ∧ c.val ≤ 57) :
    queryByte c = true ∧ c ≠ Byte.ofChar '%' ∧ c ≠ Byte.ofChar '+' ∧ c ≠ Byte.ofChar '-' := by
  revert c
  decide

/-- The verb `%d` prints digits. -/
theorem fmtDigits_digits (u : Nat) : ∀ c ∈ fmtDigits (u + 1) u [], 48 ≤ c.val ∧ c.val ≤ 57 :=
  parseDigits_some _ 0 u (by rw [parseDigits_fmtDigits _ _ _ (Nat.lt_succ_self u)]; rfl)

/-- The verb `%d` prints bytes of a query that `QueryUnescape` leaves alone. -/
theorem fmtInt_plain (n : Int) :
    ∀ c ∈ fmtInt n, queryByte c = true ∧ c ≠ Byte.ofChar '%' ∧ c ≠ Byte.ofChar '+' := by
  intro c hc
  unfold fmtInt at hc
  split at hc
  · rcases List.mem_cons.mp hc with e | e
    · subst e; decide
    · have hd := digit_plain c (fmtDigits_digits _ c e)
      exact ⟨hd.1, hd.2.1, hd.2.2.1⟩
  · have hd := digit_plain c (fmtDigits_digits _ c hc)
    exact ⟨hd.1, hd.2.1, hd.2.2.1⟩

/-- The function `strconv.Atoi` on a string of digits that `%d` printed. -/
theorem Atoi_digits (u : Nat) (h : u < 2 ^ (intSize - 1)) :
    Atoi (fmtDigits (u + 1) u []) = ((u : Int), true) := by
  have hp : parseDigits 0 (fmtDigits (u + 1) u []) = some u := by
    rw [parseDigits_fmtDigits _ _ _ (Nat.lt_succ_self u)]; rfl
  have hne := fmtDigits_ne_nil (u + 1) u [] (Or.inl (by omega))
  have hdig := fmtDigits_digits u
  cases hs : fmtDigits (u + 1) u [] with
  | nil => exact absurd hs hne
  | cons c rest =>
    rw [hs] at hp hdig
    have hc := digit_plain c (hdig c (List.mem_cons_self _ _))
    have hlt : ¬ 2 ^ (intSize - 1) ≤ u := by omega
    simp [Atoi, hc.2.2.1, hc.2.2.2, hp, hlt]

/-- The function `strconv.Atoi` reads back what `%d` prints for an `int`. -/
theorem Atoi_fmtInt (n : Int) (h : inIntRange n) : Atoi (fmtInt n) = (n, true) := by
  unfold inIntRange at h
  by_cases hneg : n < 0
  · have hp : parseDigits 0 (fmtDigits (n.natAbs + 1) n.natAbs []) = some n.natAbs := by
      rw [parseDigits_fmtDigits _ _ _ (Nat.lt_succ_self _)]; rfl
    have hne := fmtDigits_ne_nil (n.natAbs + 1) n.natAbs [] (Or.inl (by omega))
    have hle : ¬ 2 ^ (intSize - 1) < n.natAbs := by
      have h1 := h.1
      simp only [intSize] at h1 ⊢
      omega
    simp [fmtInt, hneg, Atoi, hne, hp, hle]
    rw [abs_of_neg hneg, neg_neg]
  · have hlt : n.natAbs < 2 ^ (intSize - 1) := by
      have h2 := h.2
      simp only [intSize] at h2 ⊢
      omega
    have hback : ((n.natAbs : Nat) : Int) = n := by omega
    simp only [fmtInt, hneg, if_false]
    rw [Atoi_digits _ hlt, hback]

/-- A byte of a segment is no separator of segments and no `#` or `?`. -/
theorem segByte_not_separator (c : Byte) (h : segByte c = true) :
    c ≠ Byte.ofChar '#' ∧ c ≠ Byte.ofChar '?' ∧ c ≠ Byte.ofChar '&' ∧ c ≠ Byte.ofChar ';' := by
  revert c
  decide

/-- One turn of the loop of `parseQuery` when the rest of the query holds a
further segment. -/
theorem parseQueryLoop_step (n : Nat) (m : Values) (a b : GoString)
    (h : Byte.ofChar '&' ∉ a) :
    parseQueryLoop (n + 1) m (a ++ Byte.ofChar '&' :: b) = parseQueryLoop n (parsePair m a) b := by
  have hne : a ++ Byte.ofChar '&' :: b ≠ [] := by simp
  simp only [parseQueryLoop, hne, if_false, cut_append _ a b h, Option.getD_some]

/-- The last turn of the loop of `parseQuery`. -/
theorem parseQueryLoop_last (n : Nat) (m : Values) (a : GoString) (h : Byte.ofChar '&' ∉ a) :
    parseQueryLoop (n + 2) m a = parsePair m a := by
  by_cases hne : a = []
  · subst hne
    simp [parseQueryLoop, parsePair]
  · simp [parseQueryLoop, hne, cut_of_not_mem _ a h]

/-- One segment `key=value` of the forwarder's query adds the unescaped value
under the key. -/
theorem parsePair_segment (m : Values) (key enc value : GoString)
    (hkey : ∀ c ∈ key, queryByte c = true ∧ c ≠ Byte.ofChar '%' ∧ c ≠ Byte.ofChar '+')
    (henc : ∀ c ∈ enc, queryByte c = true) (hval : QueryUnescape enc = some value) :
    parsePair m (key ++ Byte.ofChar '=' :: enc) = Values.add m key value := by
  have hsemi : Byte.ofChar ';' ∉ key ++ Byte.ofChar '=' :: enc := by
    intro hmem
    simp only [List.mem_append, List.mem_cons] at hmem
    rcases hmem with hm | hm | hm
    · exact (queryByte_not_separator _ (hkey _ hm).1).2.2.2.1 rfl
    · exact absurd hm (by decide)
    · exact (queryByte_not_separator _ (henc _ hm)).2.2.2.1 rfl
  have heq : Byte.ofChar '=' ∉ key := by
    intro hm
    exact (queryByte_not_separator _ (hkey _ hm).1).2.2.2.2 rfl
  have hne : key ++ Byte.ofChar '=' :: enc ≠ [] := by simp
  have hk : QueryUnescape key = some key :=
    QueryUnescape_of_plain key (fun c hc => ⟨(hkey c hc).2.1, (hkey c hc).2.2⟩)
  simp only [parsePair, hsemi, hne, if_false, cut_append _ key enc heq, hk, Option.getD_some,
    hval]

/-- A segment of the forwarder's query holds no `&`, `#` or `?`. -/
theorem segment_bytes (key enc : GoString) (hkey : ∀ c ∈ key, queryByte c = true)
    (henc : ∀ c ∈ enc, queryByte c = true) :
    ∀ c ∈ key ++ Byte.ofChar '=' :: enc, segByte c = true := by
  intro c hc
  simp only [List.mem_append, List.mem_cons] at hc
  rcases hc with hm | hm | hm
  · simp [segByte, hkey c hm]
  · subst hm; decide
  · simp [segByte, henc c hm]

/-- The query of four segments is parsed into the four keys with one value each. -/
theorem parseQuery_four (k1 k2 k3 k4 e1 e2 e3 e4 v1 v2 v3 v4 : GoString)
    (hk1 : ∀ c ∈ k1, queryByte c = true ∧ c ≠ Byte.ofChar '%' ∧ c ≠ Byte.ofChar '+')
    (hk2 : ∀ c ∈ k2, queryByte c = true ∧ c ≠ Byte.ofChar '%' ∧ c ≠ Byte.ofChar '+')
    (hk3 : ∀ c ∈ k3, queryByte c = true ∧ c ≠ Byte.ofChar '%' ∧ c ≠ Byte.ofChar '+')
    (hk4 : ∀ c ∈ k4, queryByte c = true ∧ c ≠ Byte.ofChar '%' ∧ c ≠ Byte.ofChar '+')
    (he1 : ∀ c ∈ e1, queryByte c = true) (he2 : ∀ c ∈ e2, queryByte c = true)
    (he3 : ∀ c ∈ e3, queryByte c = true) (he4 : ∀ c ∈ e4, queryByte c = true)
    (hv1 : QueryUnescape e1 = some v1) (hv2 : QueryUnescape e2 = some v2)
    (hv3 : QueryUnescape e3 = some v3) (hv4 : QueryUnescape e4 = some v4) :
    parseQuery []
      ((k1 ++ Byte.ofChar '=' :: e1) ++ Byte.ofChar '&' ::
        ((k2 ++ Byte.ofChar '=' :: e2) ++ Byte.ofChar '&' ::
          ((k3 ++ Byte.ofChar '=' :: e3) ++ Byte.ofChar '&' :: (k4 ++ Byte.ofChar '=' :: e4)))) =
      Values.add (Values.add (Values.add (Values.add [] k1 v1) k2 v2) k3 v3) k4 v4 := by
  have noAmp : ∀ (k e : GoString), (∀ c ∈ k, queryByte c = true) →
      (∀ c ∈ e, queryByte c = true) → Byte.ofChar '&' ∉ k ++ Byte.ofChar '=' :: e := by
    intro k e hk he hm
    exact (segByte_not_separator _ (segment_bytes k e hk he _ hm)).2.2.1 rfl
  have a1 := noAmp k1 e1 (fun c hc => (hk1 c hc).1) he1
  have a2 := noAmp k2 e2 (fun c hc => (hk2 c hc).1) he2
  have a3 := noAmp k3 e3 (fun c hc => (hk3 c hc).1) he3
  have a4 := noAmp k4 e4 (fun c hc => (hk4 c hc).1) he4
  obtain ⟨n, hn⟩ : ∃ n, ((k1 ++ Byte.ofChar '=' :: e1) ++ Byte.ofChar '&' ::
        ((k2 ++ Byte.ofChar '=' :: e2) ++ Byte.ofChar '&' ::
          ((k3 ++ Byte.ofChar '=' :: e3) ++ Byte.ofChar '&' ::
            (k4 ++ Byte.ofChar '=' :: e4)))).length + 1 = n + 5 := by
    refine ⟨k1.length + e1.length + k2.length + e2.length + k3.length + e3.length
      + k4.length + e4.length + 3, ?_⟩
    simp only [List.length_append, List.length_cons]
    omega
  unfold parseQuery
  rw [hn, parseQueryLoop_step _ _ _ _ a1, parseQueryLoop_step _ _ _ _ a2,
    parseQueryLoop_step _ _ _ _ a3, parseQueryLoop_last _ _ _ a4,
    parsePair_segment _ _ _ _ hk1 he1 hv1, parsePair_segment _ _ _ _ hk2 he2 hv2,
    parsePair_segment _ _ _ _ hk3 he3 hv3, parsePair_segment _ _ _ _ hk4 he4 hv4]

/-- The form of four distinct keys, written out. -/
theorem form_of_command (v1 v2 v3 v4 : GoString) :
    Values.add (Values.add (Values.add (Values.add [] (str "verb") v1) (str "alias") v2)
      (str "dir") v3) (str "port") v4 =
      [(str "verb", [v1]), (str "alias", [v2]), (str "dir", [v3]), (str "port", [v4])] := by
  have h12 : str "verb" ≠ str "alias" := by decide
  have h13 : str "verb" ≠ str "dir" := by decide
  have h14 : str "verb" ≠ str "port" := by decide
  have h23 : str "alias" ≠ str "dir" := by decide
  have h24 : str "alias" ≠ str "port" := by decide
  have h34 : str "dir" ≠ str "port" := by decide
  simp only [Values.add, h12, h13, h14, h23, h24, h34, if_false]

/-- The handler's reading of the form of four distinct keys. -/
theorem decodeForm_of_command (v1 v2 v3 v4 : GoString) :
    ¬ keyAbsent [(str "verb", [v1]), (str "alias", [v2]), (str "dir", [v3]), (str "port", [v4])] ∧
    decodeForm [(str "verb", [v1]), (str "alias", [v2]), (str "dir", [v3]), (str "port", [v4])] =
      .command v1 v3 v2 (Atoi v4).1 (decide (v1 = str "remove")) := by
  have h12 : str "verb" ≠ str "alias" := by decide
  have h13 : str "verb" ≠ str "dir" := by decide
  have h14 : str "verb" ≠ str "port" := by decide
  have h23 : str "alias" ≠ str "dir" := by decide
  have h24 : str "alias" ≠ str "port" := by decide
  have h34 : str "dir" ≠ str "port" := by decide
  constructor
  · simp [keyAbsent, Values.get, h12, h13, h14, h23, h24, h34]
  · simp [decodeForm, Values.get, h12, h13, h14, h23, h24, h34]

/-- The URL of a mutate command, cut into its parts. -/
theorem forwarderURL_parts (f : Flags) (root pattern : GoString) (hl : f.list = false)
    (hq : f.quit = false) :
    forwarderURL f root pattern =
      str "http://localhost/" ++ Byte.ofChar '?' ::
        ((str "verb" ++ Byte.ofChar '=' :: (if f.remove then str "remove" else str "add")) ++
          Byte.ofChar '&' ::
          ((str "alias" ++ Byte.ofChar '=' :: QueryEscape pattern) ++ Byte.ofChar '&' ::
            ((str "dir" ++ Byte.ofChar '=' :: QueryEscape root) ++ Byte.ofChar '&' ::
              (str "port" ++ Byte.ofChar '=' :: fmtInt f.port)))) := by
  have h1 : str "http://localhost/?verb=" =
      str "http://localhost/" ++ Byte.ofChar '?' :: (str "verb" ++ [Byte.ofChar '=']) := by decide
  have h2 : str "&alias=" = Byte.ofChar '&' :: (str "alias" ++ [Byte.ofChar '=']) := by decide
  have h3 : str "&dir=" = Byte.ofChar '&' :: (str "dir" ++ [Byte.ofChar '=']) := by decide
  have h4 : str "&port=" = Byte.ofChar '&' :: (str "port" ++ [Byte.ofChar '=']) := by decide
  simp only [forwarderURL, hl, hq, h1, h2, h3, h4, List.append_assoc, List.cons_append,
    List.nil_append, Bool.false_eq_true, if_false]

/-- C6: for every alias, every rootDir, every port of Go's `int` and every
remove flag, the URL the forwarder builds for a mutate command is decoded by the
`"/"` handler into the same verb, rootDir, alias, port and remove flag, and all
four keys are present. -/
theorem forward_decode_roundtrip (f : Flags) (root pattern : GoString) (hl : f.list = false)
    (hq : f.quit = false) (hport : inIntRange f.port) :
    ¬ keyAbsent (ParseForm (requestOf (forwarderURL f root pattern))) ∧
    decodeForm (ParseForm (requestOf (forwarderURL f root pattern))) =
      .command (if f.remove then str "remove" else str "add") root pattern f.port f.remove := by
  have hlit : ∀ lit : GoString,
      (lit.all (fun c => queryByte c && decide (c ≠ Byte.ofChar '%') &&
        decide (c ≠ Byte.ofChar '+')) = true) →
      ∀ c ∈ lit, queryByte c = true ∧ c ≠ Byte.ofChar '%' ∧ c ≠ Byte.ofChar '+' := by
    intro lit hall c hc
    have := List.all_eq_true.mp hall c hc
    simpa [Bool.and_eq_true, and_assoc] using this
  have hk1 := hlit (str "verb") (by decide)
  have hk2 := hlit (str "alias") (by decide)
  have hk3 := hlit (str "dir") (by decide)
  have hk4 := hlit (str "port") (by decide)
  have hverb := hlit (if f.remove then str "remove" else str "add")
    (by cases f.remove <;> decide)
  have hvu : QueryUnescape (if f.remove then str "remove" else str "add") =
      some (if f.remove then str "remove" else str "add") :=
    QueryUnescape_of_plain _ (fun c hc => (hverb c hc).2)
  have he1 : ∀ c ∈ (if f.remove then str "remove" else str "add"), queryByte c = true :=
    fun c hc => (hverb c hc).1
  have he2 := QueryEscape_queryByte pattern
  have he3 := QueryEscape_queryByte root
  have he4 : ∀ c ∈ fmtInt f.port, queryByte c = true := fun c hc => (fmtInt_plain _ c hc).1
  have hpu : QueryUnescape (fmtInt f.port) = some (fmtInt f.port) :=
    QueryUnescape_of_plain _ (fun c hc => (fmtInt_plain _ c hc).2)
  have noSep : ∀ (k e : GoString), (∀ c ∈ k, queryByte c = true) →
      (∀ c ∈ e, queryByte c = true) →
      Byte.ofChar '#' ∉ k ++ Byte.ofChar '=' :: e := by
    intro k e hk he hm
    exact (segByte_not_separator _ (segment_bytes k e hk he _ hm)).1 rfl
  have n1 := noSep _ _ (fun c hc => (hk1 c hc).1) he1
  have n2 := noSep _ _ (fun c hc => (hk2 c hc).1) he2
  have n3 := noSep _ _ (fun c hc => (hk3 c hc).1) he3
  have n4 := noSep _ _ (fun c hc => (hk4 c hc).1) he4
  have hhost : Byte.ofChar '#' ∉ str "http://localhost/" := by decide
  have hhostq : Byte.ofChar '?' ∉ str "http://localhost/" := by decide
  have hq1 : Byte.ofChar '#' ≠ Byte.ofChar '?' := by decide
  have hq2 : Byte.ofChar '#' ≠ Byte.ofChar '&' := by decide
  have hraw : rawQueryOf (forwarderURL f root pattern) =
      (str "verb" ++ Byte.ofChar '=' :: (if f.remove then str "remove" else str "add")) ++
        Byte.ofChar '&' ::
        ((str "alias" ++ Byte.ofChar '=' :: QueryEscape pattern) ++ Byte.ofChar '&' ::
          ((str "dir" ++ Byte.ofChar '=' :: QueryEscape root) ++ Byte.ofChar '&' ::
            (str "port" ++ Byte.ofChar '=' :: fmtInt f.port))) := by
    rw [forwarderURL_parts f root pattern hl hq]
    unfold rawQueryOf
    rw [cut_of_not_mem (Byte.ofChar '#')]
    · rw [cut_append _ _ _ hhostq]
      rfl
    · intro hm
      rcases List.mem_append.mp hm with hm | hm
      · exact hhost hm
      · rcases List.mem_cons.mp hm with hm | hm
        · exact hq1 hm
        · rcases List.mem_append.mp hm with hm | hm
          · exact n1 hm
          · rcases List.mem_cons.mp hm with hm | hm
            · exact hq2 hm
            · rcases List.mem_append.mp hm with hm | hm
              · exact n2 hm
              · rcases List.mem_cons.mp hm with hm | hm
                · exact hq2 hm
                · rcases List.mem_append.mp hm with hm | hm
                  · exact n3 hm
                  · rcases List.mem_cons.mp hm with hm | hm
                    · exact hq2 hm
                    · exact n4 hm
  have hempty : parseQuery [] [] = [] := by decide
  have hform : ParseForm (requestOf (forwarderURL f root pattern)) =
      [(str "verb", [if f.remove then str "remove" else str "add"]), (str "alias", [pattern]),
        (str "dir", [root]), (str "port", [fmtInt f.port])] := by
    unfold ParseForm requestOf
    simp only [hempty, hraw]
    rw [parseQuery_four _ _ _ _ _ _ _ _ _ _ _ _ hk1 hk2 hk3 hk4 he1 he2 he3 he4 hvu
      (QueryUnescape_QueryEscape pattern) (QueryUnescape_QueryEscape root) hpu]
    exact form_of_command _ _ _ _
  rw [hform]
  refine ⟨(decodeForm_of_command _ _ _ _).1, ?_⟩
  rw [(decodeForm_of_command _ _ _ _).2, Atoi_fmtInt _ hport]
  cases f.remove
  · have hne : str "add" ≠ str "remove" := by decide
    simp [hne]
  · simp

/-- C6 on `-remove -port -5 -dir "/srv/my dir" -alias "a&b"`. -/
theorem forward_decode_roundtrip_witness :
    forwarderURL removeFlags (str "/srv/my dir") (str "a&b") =
      str "http://localhost/?verb=remove&alias=a%26b&dir=%2Fsrv%2Fmy+dir&port=-5" ∧
    decodeForm (ParseForm (requestOf (forwarderURL removeFlags (str "/srv/my dir") (str "a&b"))))
      = .command (str "remove") (str "/srv/my dir") (str "a&b") (-5) true :=
  ⟨by decide,
    (forward_decode_roundtrip removeFlags (str "/srv/my dir") (str "a&b") rfl rfl
      (by unfold inIntRange intSize; decide)).2⟩

/-- C1 on a request without the key port: the reply is 400 and the registry
and the mounts are as before. -/
theorem rootHandler_badRequest_iff_witness :
    keyAbsent (ParseForm addWithoutPort) ∧
    (rootHandler specHandy addWithoutPort twoMounts ResponseWriter.fresh).w.replyStatus = 400 ∧
    (rootHandler specHandy addWithoutPort twoMounts ResponseWriter.fresh).world.handy =
      twoMounts.handy :=
  have habsent : keyAbsent (ParseForm addWithoutPort) :=
    Or.inr (Or.inr (Or.inr (by decide)))
  ⟨habsent,
    ((rootHandler_badRequest_iff specHandy addWithoutPort twoMounts).1.mpr habsent).1,
    ((rootHandler_badRequest_iff specHandy addWithoutPort twoMounts).1.mpr habsent).2.1⟩

end Handyhttpd
